import Mathlib

/-!
# git_guardian_mcp: protocol dispatcher, check runner, test runner, orchestrator

A shallow embedding of `pkg/mcp/server.go`, `pkg/tests/runner.go`,
`pkg/config/config.go`, `pkg/analyzer/analyzer.go` and the tool handlers of
`main.go`, followed by theorems about them.

Conventions of the embedding

* Go functions that only read their arguments are Lean functions.
* Go functions with effects take the current state and return the next one.
  The dispatcher's state is a `Conn`: the lines it handed to its writer, the
  lines it logged, the tool handlers it invoked, and the world outside the
  process. The runners' state is a `Sys`: the world outside the process and
  the ordered list of actions performed on it.
* Library calls (`encoding/json`, `yaml`, `os/exec`, `os.Stat`) are fields
  of records that the embedded functions take as arguments, so every theorem
  holds for every behaviour of the library and of the operating system.
-/

namespace GitGuardian

/-! ## pkg/mcp/server.go: data model -/

/-- Bytes of a JSON document that has not been decoded (`json.RawMessage`). -/
abbrev RawMessage := String

/-- Non-nil value of an `interface` field filled by the JSON decoder (a number,
string, boolean, array or object), identified by its JSON text. The Go value
`nil`, which the decoder produces for an absent field and for `null`, is
`none : Option JSONValue`. -/
structure JSONValue where
  text : String
deriving DecidableEq, Repr

/-- Values built from Go map, slice and string literals in `server.go`
(`map[string]interface`, `[]interface`, `string`). -/
inductive JSON where
  | str (s : String)
  | arr (items : List JSON)
  | obj (fields : List (String × JSON))

/-- Go `Request`. `ID` is `none` when the id is absent or null; `Params` is
empty when absent. -/
structure Request where
  JSONRPC : String
  ID : Option JSONValue
  Method : String
  Params : RawMessage

/-- Go `Error`. -/
structure Error where
  Code : Int
  Message : String
deriving DecidableEq, Repr

/-- Go `Response`. `Result` is `none` for a nil interface, `Error` is `none`
for a nil pointer. -/
structure Response where
  JSONRPC : String
  ID : Option JSONValue
  Result : Option JSON
  Error : Option Error

/-- Go `Tool`. A handler receives the raw arguments, may act on the world
outside the process (type `σ`) and returns a result of type `ρ` or an error
text. -/
structure Tool (σ ρ : Type) where
  Name : String
  Description : String
  Handler : RawMessage → σ → Except String ρ × σ

/-- Go `Server`: the registry `tools map[string]*Tool` as an association list
(`List.lookup` is the map access). The logger and the writer are in `Conn`. -/
structure Server (σ ρ : Type) where
  tools : List (String × Tool σ ρ)

/-- State the dispatcher acts on: the world outside the process, the responses
whose encoding was handed to `s.writer` (oldest first, one line each), the
lines given to `s.logger`, and the handler invocations (tool name, arguments). -/
structure Conn (σ : Type) where
  world : σ
  written : List Response
  logged : List String
  invoked : List (String × RawMessage)

/-- The anonymous struct that `handleToolCall` decodes `req.Params` into. -/
structure ToolCallParams where
  Name : String
  Arguments : RawMessage

/-- The calls into `encoding/json` and `fmt` whose result depends on data the
server does not inspect: `json.Unmarshal(req.Params, &params)`,
`json.MarshalIndent(v, "", "  ")` and `fmt.Sprintf("%v", v)`. -/
structure JSONLib (ρ : Type) where
  unmarshalParams : RawMessage → Except String ToolCallParams
  marshalIndent : ρ → Except String String
  sprint : ρ → String

/-! ## pkg/mcp/server.go: functions -/

/-- Go `NewServer`: an empty registry. -/
def NewServer (σ ρ : Type) : Server σ ρ :=
  { tools := [] }

/-- Go map assignment `m[k] = v` on the association list: replace the entry of
an existing key, append a new key. -/
def mapAssign {α : Type} (k : String) (v : α) : List (String × α) → List (String × α)
  | [] => [(k, v)]
  | (k1, v1) :: rest => if k1 = k then (k, v) :: rest else (k1, v1) :: mapAssign k v rest

/-- Go `Server.RegisterTool`. -/
def RegisterTool {σ ρ : Type} (s : Server σ ρ) (name description : String)
    (handler : RawMessage → σ → Except String ρ × σ) : Server σ ρ :=
  { tools := mapAssign name { Name := name, Description := description, Handler := handler } s.tools }

/-- A call of `s.logger.Printf` or `s.logger.Println` with the formatted line. -/
def logPrintf {σ : Type} (line : String) (c : Conn σ) : Conn σ :=
  { c with logged := c.logged ++ [line] }

/-- Go `Server.writeResponse`. `json.Marshal` cannot fail on the responses built
in this file (strings, integers, maps and slices of them, and an id produced by
the decoder), so the encoded line always reaches `s.writer.Write`; a failure of
`Write` is only logged by the source. -/
def writeResponse {σ : Type} (resp : Response) (c : Conn σ) : Conn σ :=
  { c with written := c.written ++ [resp] }

/-- Go `Server.sendResponse`. -/
def sendResponse {σ : Type} (id : Option JSONValue) (result : JSON) (c : Conn σ) : Conn σ :=
  writeResponse { JSONRPC := "2.0", ID := id, Result := some result, Error := none } c

/-- Go `Server.sendError`. -/
def sendError {σ : Type} (id : Option JSONValue) (code : Int) (message : String)
    (c : Conn σ) : Conn σ :=
  writeResponse
    { JSONRPC := "2.0", ID := id, Result := none, Error := some { Code := code, Message := message } } c

/-- Go `toJSON`. -/
def toJSON {ρ : Type} (J : JSONLib ρ) (v : ρ) : String :=
  match J.marshalIndent v with
  | .error _ => J.sprint v
  | .ok data => data

/-- Go `Server.handleInitialize`. -/
def handleInitialize {σ : Type} (req : Request) (c : Conn σ) : Conn σ :=
  let c1 := logPrintf "MCP server initialized" c
  let result := JSON.obj [
    ("protocolVersion", .str "2024-11-05"),
    ("serverInfo", .obj [("name", .str "git-guardian-mcp"), ("version", .str "1.0.0")]),
    ("capabilities", .obj [("tools", .obj []), ("resources", .obj []), ("prompts", .obj [])])]
  sendResponse req.ID result c1

/-- Go `Server.handleToolsList`. The source ranges over the map in an
unspecified order; the list order stands for one such order. -/
def handleToolsList {σ ρ : Type} (s : Server σ ρ) (req : Request) (c : Conn σ) : Conn σ :=
  let tools := s.tools.map fun kv =>
    JSON.obj [
      ("name", .str kv.2.Name),
      ("description", .str kv.2.Description),
      ("inputSchema", .obj [("type", .str "object"), ("properties", .obj [])])]
  sendResponse req.ID (.obj [("tools", .arr tools)]) c

/-- Go `Server.handleResourcesList`. -/
def handleResourcesList {σ : Type} (req : Request) (c : Conn σ) : Conn σ :=
  sendResponse req.ID (.obj [("resources", .arr [])]) c

/-- Go `Server.handlePromptsList`. -/
def handlePromptsList {σ : Type} (req : Request) (c : Conn σ) : Conn σ :=
  sendResponse req.ID (.obj [("prompts", .arr [])]) c

/-- Go `Server.handleToolCall`. -/
def handleToolCall {σ ρ : Type} (J : JSONLib ρ) (s : Server σ ρ) (req : Request)
    (c : Conn σ) : Conn σ :=
  match J.unmarshalParams req.Params with
  | .error err => sendError req.ID (-32602) ("Invalid params: " ++ err) c
  | .ok params =>
    let c1 := logPrintf ("Executing tool: " ++ params.Name) c
    match s.tools.lookup params.Name with
    | none => sendError req.ID (-32602) ("Tool not found: " ++ params.Name) c1
    | some tool =>
      let r := tool.Handler params.Arguments c1.world
      let c2 : Conn σ :=
        { c1 with world := r.2, invoked := c1.invoked ++ [(params.Name, params.Arguments)] }
      match r.1 with
      | .error err =>
        let c3 := logPrintf ("ERROR: Tool " ++ params.Name ++ " failed: " ++ err) c2
        sendError req.ID (-32603) ("Tool execution error: " ++ err) c3
      | .ok result =>
        sendResponse req.ID
          (.obj [("content", .arr [.obj [("type", .str "text"), ("text", .str (toJSON J result))]])])
          c2

/-- Go `Server.handleRequest`. -/
def handleRequest {σ ρ : Type} (J : JSONLib ρ) (s : Server σ ρ) (req : Request)
    (c : Conn σ) : Conn σ :=
  let c0 :=
    if req.Method ≠ "resources/list" ∧ req.Method ≠ "prompts/list" ∧ req.Method ≠ "ping" then
      logPrintf ("Handling method: " ++ req.Method) c
    else c
  match req.Method with
  | "initialize" => handleInitialize req c0
  | "initialized" => c0
  | "notifications/initialized" => c0
  | "tools/list" => handleToolsList s req c0
  | "tools/call" => handleToolCall J s req c0
  | "resources/list" => handleResourcesList req c0
  | "prompts/list" => handlePromptsList req c0
  | "ping" => sendResponse req.ID (.obj []) c0
  | _ =>
    if req.ID.isNone then
      logPrintf ("Ignoring notification: " ++ req.Method) c0
    else
      let c1 := logPrintf ("Unknown method: " ++ req.Method) c0
      sendError req.ID (-32601) ("Method not found: " ++ req.Method) c1

/-! ## The world outside the process -/

/-- A command handed to `os/exec`: working directory (`cmd.Dir`, empty for the
directory of the calling process), program name followed by its arguments, and
the length in nanoseconds of the context deadline (`none` without a context). -/
structure Cmd where
  dir : String
  argv : List String
  timeout : Option Int
deriving DecidableEq, Repr

/-- What `cmd.Run`, `cmd.Output` or `cmd.CombinedOutput` reports: the bytes of
standard output, of standard error, of both interleaved, the error (`none` for
exit status zero), whether `ctx.Err()` is `context.DeadlineExceeded` after the
call returned, and the wall-clock time in nanoseconds that the caller measures
around the call. -/
structure Outcome where
  stdout : String
  stderr : String
  combined : String
  err : Option String
  deadlineExceeded : Bool
  elapsed : Nat
deriving DecidableEq, Repr

/-- The operating system as seen by the runners, over a world of type `σ`:
running a command, `exec.LookPath(name)` succeeding, `os.IsNotExist` holding
of the error of `os.Stat(path)`, and `os.ReadFile(path)`. -/
structure OS (σ : Type) where
  exec : Cmd → σ → Outcome × σ
  lookPath : String → σ → Bool
  notExist : String → σ → Bool
  readFile : String → σ → Except String String

/-- An action of the runners on the world, recorded in order: a command handed
to `os/exec`, or the entry into one of the collaborators of `main.go`. -/
inductive Action where
  | exec (cmd : Cmd)
  | GetUnpushedCommits (repoPath remote branch : String)
  | RunChecks (repoPath : String) (files : List String)
  | Load (path : String)
  | RunAll (repoPath : String)
deriving DecidableEq, Repr

/-- State the runners act on: the world and the actions performed so far,
oldest first. -/
structure Sys (σ : Type) where
  world : σ
  trace : List Action

/-- Append an action to the trace. -/
def record {σ : Type} (a : Action) (m : Sys σ) : Sys σ :=
  { m with trace := m.trace ++ [a] }

/-- Hand a command to `os/exec` and wait for it. -/
def spawn {σ : Type} (os : OS σ) (cmd : Cmd) (m : Sys σ) : Outcome × Sys σ :=
  let r := os.exec cmd m.world
  (r.1, { world := r.2, trace := m.trace ++ [Action.exec cmd] })

/-! ## Go library functions on strings -/

/-- Go `unicode.IsSpace`. -/
def isSpace (c : Char) : Bool :=
  c = '\t' || c = '\n' || c = Char.ofNat 0x0B || c = Char.ofNat 0x0C || c = '\r' || c = ' '
    || c = Char.ofNat 0x85 || c = Char.ofNat 0xA0 || c = Char.ofNat 0x1680
    || (0x2000 ≤ c.toNat && c.toNat ≤ 0x200A)
    || c = Char.ofNat 0x2028 || c = Char.ofNat 0x2029 || c = Char.ofNat 0x202F
    || c = Char.ofNat 0x205F || c = Char.ofNat 0x3000

/-- Loop of Go `strings.Fields`: `cur` is the field being read. -/
def fieldsAux : List Char → List Char → List String
  | [], cur => if cur = [] then [] else [String.mk cur]
  | c :: cs, cur =>
    if isSpace c then
      if cur = [] then fieldsAux cs [] else String.mk cur :: fieldsAux cs []
    else fieldsAux cs (cur ++ [c])

/-- Go `strings.Fields`: the maximal runs of non-space characters. -/
def Fields (s : String) : List String :=
  fieldsAux s.data []

/-- Go `strings.TrimSpace`. -/
def TrimSpace (s : String) : String :=
  String.mk ((s.data.dropWhile isSpace).reverse.dropWhile isSpace).reverse

/-- Conversion of Go `int64` arithmetic results: two's complement wrap-around. -/
def wrapInt64 (x : Int) : Int :=
  (x + 2 ^ 63) % 2 ^ 64 - 2 ^ 63

/-! ## pkg/config/config.go -/

/-- Go `TestConfig`. `Timeout` is in seconds. -/
structure TestConfig where
  Name : String
  Command : String
  Blocking : Bool
  Timeout : Int
deriving DecidableEq, Repr

/-- Go `Config`. -/
structure Config where
  Tests : List TestConfig
deriving DecidableEq, Repr

/-- The call `yaml.Unmarshal(data, &config)`. -/
structure YAMLLib where
  unmarshal : String → Except String Config

/-- Go `config.Load`. -/
def Load {σ : Type} (os : OS σ) (Y : YAMLLib) (path : String) (m : Sys σ) :
    Except String Config × Sys σ :=
  let m1 := record (Action.Load path) m
  match os.readFile path m.world with
  | .error err => (.error ("failed to read config file: " ++ err), m1)
  | .ok data =>
    match Y.unmarshal data with
    | .error err => (.error ("failed to parse config file: " ++ err), m1)
    | .ok config =>
      (.ok { Tests := config.Tests.map fun t => if t.Timeout = 0 then { t with Timeout := 300 } else t },
        m1)

/-! ## pkg/tests/runner.go -/

/-- Go `TestResult`. `Duration` is the elapsed time in nanoseconds (the source
stores the same quantity as floating-point seconds); `Error` is empty when the
source leaves the field unset. -/
structure TestResult where
  Name : String
  Success : Bool
  Blocking : Bool
  Duration : Nat
  Output : String
  Error : String
deriving DecidableEq, Repr

/-- Go `Runner`. -/
structure Runner where
  repoPath : String
  config : Config

/-- Go `NewRunner`. -/
def NewRunner (repoPath : String) (config : Config) : Runner :=
  { repoPath := repoPath, config := config }

/-- Go `Runner.runTest`. The deadline is `time.Duration(Timeout) * time.Second`,
an `int64` product. -/
def runTest {σ : Type} (os : OS σ) (r : Runner) (testConfig : TestConfig) (m : Sys σ) :
    TestResult × Sys σ :=
  let timeout := wrapInt64 (testConfig.Timeout * 1000000000)
  match Fields testConfig.Command with
  | [] =>
    ({ Name := testConfig.Name, Success := false, Blocking := testConfig.Blocking,
       Duration := 0, Output := "", Error := "empty command" }, m)
  | name :: args =>
    let p := spawn os { dir := r.repoPath, argv := name :: args, timeout := some timeout } m
    let output0 := if p.1.stderr ≠ "" then p.1.stdout ++ "\n" ++ p.1.stderr else p.1.stdout
    let output := TrimSpace output0
    let result : TestResult :=
      { Name := testConfig.Name, Success := p.1.err.isNone, Blocking := testConfig.Blocking,
        Duration := p.1.elapsed, Output := output, Error := "" }
    match p.1.err with
    | none => (result, p.2)
    | some e =>
      if p.1.deadlineExceeded then
        ({ result with
            Error := "test timed out after " ++ toString testConfig.Timeout ++ " seconds" }, p.2)
      else ({ result with Error := e }, p.2)

/-- Loop of Go `Runner.RunAll`: run each test in order and append its result. -/
def runAllLoop {σ : Type} (os : OS σ) (r : Runner) : List TestConfig → Sys σ →
    List TestResult × Sys σ
  | [], m => ([], m)
  | testConfig :: rest, m =>
    let p := runTest os r testConfig m
    let q := runAllLoop os r rest p.2
    (p.1 :: q.1, q.2)

/-- Go `Runner.RunAll`. -/
def RunAll {σ : Type} (os : OS σ) (r : Runner) (m : Sys σ) : List TestResult × Sys σ :=
  runAllLoop os r r.config.Tests (record (Action.RunAll r.repoPath) m)

/-! ## pkg/analyzer/analyzer.go -/

/-- Go `CheckResult`. String fields are empty, integer fields zero and `Errors`
empty where the source leaves them unset. -/
structure CheckResult where
  Tool : String
  File : String
  Line : Int
  Column : Int
  Severity : String
  Message : String
  Success : Bool
  Output : String
  Errors : List String
deriving DecidableEq, Repr

/-- Go `analyzer.Analyzer`. -/
structure Analyzer where
  repoPath : String

/-- Go `analyzer.NewAnalyzer`. -/
def NewAnalyzer (repoPath : String) : Analyzer :=
  { repoPath := repoPath }

/-- Loop of Go `filepath.Ext` on a path read from its last character backwards:
`acc` holds the characters already passed. The separator is the slash. -/
def extAux : List Char → List Char → String
  | [], _ => ""
  | c :: cs, acc =>
    if c = '/' then ""
    else if c = '.' then String.mk ('.' :: acc)
    else extAux cs (c :: acc)

/-- Go `filepath.Ext`: the suffix starting at the last dot of the last path
element, empty when that element has no dot. -/
def Ext (path : String) : String :=
  extAux path.data.reverse []

/-- Go `unicode.ToLower` on the characters whose image is an ASCII character:
the capital ASCII letters, the Kelvin sign and the dotted capital I. Every other
character outside ASCII, which Go maps to a character outside ASCII, is left
as it is. -/
def toLowerRune (c : Char) : Char :=
  if 'A' ≤ c ∧ c ≤ 'Z' then Char.ofNat (c.toNat + 32)
  else if c = Char.ofNat 0x212A then 'k'
  else if c = Char.ofNat 0x0130 then 'i'
  else c

/-- Go `strings.ToLower`. -/
def ToLower (s : String) : String :=
  String.mk (s.data.map toLowerRune)

/-- Go map read `m[k]` of a map of slices: the nil slice for a missing key. -/
def mapIndex (groups : List (String × List String)) (k : String) : List String :=
  (groups.lookup k).getD []

/-- Loop of Go `Analyzer.groupFilesByType`, `groups` being the map built so far. -/
def groupFilesLoop {σ : Type} (os : OS σ) (w : σ) :
    List String → List (String × List String) → List (String × List String)
  | [], groups => groups
  | file :: rest, groups =>
    if os.notExist file w then groupFilesLoop os w rest groups
    else
      match ToLower (Ext file) with
      | ".go" => groupFilesLoop os w rest (mapAssign "go" (mapIndex groups "go" ++ [file]) groups)
      | ".dart" =>
        groupFilesLoop os w rest (mapAssign "dart" (mapIndex groups "dart" ++ [file]) groups)
      | ".sh" =>
        groupFilesLoop os w rest (mapAssign "bash" (mapIndex groups "bash" ++ [file]) groups)
      | ".bash" =>
        groupFilesLoop os w rest (mapAssign "bash" (mapIndex groups "bash" ++ [file]) groups)
      | ".js" => groupFilesLoop os w rest (mapAssign "js" (mapIndex groups "js" ++ [file]) groups)
      | ".jsx" => groupFilesLoop os w rest (mapAssign "js" (mapIndex groups "js" ++ [file]) groups)
      | ".ts" => groupFilesLoop os w rest (mapAssign "js" (mapIndex groups "js" ++ [file]) groups)
      | ".tsx" => groupFilesLoop os w rest (mapAssign "js" (mapIndex groups "js" ++ [file]) groups)
      | _ => groupFilesLoop os w rest groups

/-- Go `Analyzer.groupFilesByType`. -/
def groupFilesByType {σ : Type} (os : OS σ) (files : List String) (m : Sys σ) :
    List (String × List String) :=
  groupFilesLoop os m.world files []

/-- Go `commandExists`. -/
def commandExists {σ : Type} (os : OS σ) (cmd : String) (m : Sys σ) : Bool :=
  os.lookPath cmd m.world

/-- Go `Analyzer.runGoFmt`: `gofmt -l files...` through `cmd.Output`. -/
def runGoFmt {σ : Type} (os : OS σ) (a : Analyzer) (files : List String) (m : Sys σ) :
    CheckResult × Sys σ :=
  let p := spawn os { dir := a.repoPath, argv := ["gofmt", "-l"] ++ files, timeout := none } m
  let outputStr := TrimSpace p.1.stdout
  if p.1.err.isSome ∨ outputStr ≠ "" then
    let errors := if outputStr ≠ "" then ["Files not formatted:\n" ++ outputStr] else []
    ({ Tool := "gofmt", File := "", Line := 0, Column := 0, Severity := "error",
       Message := "Go formatting issues found", Success := false, Output := outputStr,
       Errors := errors }, p.2)
  else
    ({ Tool := "gofmt", File := "", Line := 0, Column := 0, Severity := "info",
       Message := "All Go files properly formatted", Success := true, Output := "",
       Errors := [] }, p.2)

/-- The shape shared by every provider that runs one command through
`cmd.CombinedOutput` and reports failure exactly when the command returns an
error: `runGoVet`, `runGolangciLint`, the two halves of `checkDart`, one
iteration of `checkBash`, and `checkJavaScript`. -/
def runCombined {σ : Type} (os : OS σ) (cmd : Cmd) (tool file failMessage okMessage : String)
    (m : Sys σ) : CheckResult × Sys σ :=
  let p := spawn os cmd m
  let outputStr := TrimSpace p.1.combined
  if p.1.err.isSome then
    ({ Tool := tool, File := file, Line := 0, Column := 0, Severity := "error",
       Message := failMessage, Success := false, Output := outputStr,
       Errors := [outputStr] }, p.2)
  else
    ({ Tool := tool, File := file, Line := 0, Column := 0, Severity := "info",
       Message := okMessage, Success := true, Output := "", Errors := [] }, p.2)

/-- Go `Analyzer.runGoVet`. -/
def runGoVet {σ : Type} (os : OS σ) (a : Analyzer) (m : Sys σ) : CheckResult × Sys σ :=
  runCombined os { dir := a.repoPath, argv := ["go", "vet", "./..."], timeout := none }
    "go vet" "" "Go vet found issues" "No issues found by go vet" m

/-- Go `Analyzer.runGolangciLint`. The source does not pass `files` on. -/
def runGolangciLint {σ : Type} (os : OS σ) (a : Analyzer) (_files : List String) (m : Sys σ) :
    CheckResult × Sys σ :=
  runCombined os
    { dir := a.repoPath, argv := ["golangci-lint", "run", "--out-format=colored-line-number"],
      timeout := none }
    "golangci-lint" "" "Linter found issues" "No linting issues found" m

/-- Go `Analyzer.checkGo`. -/
def checkGo {σ : Type} (os : OS σ) (a : Analyzer) (files : List String) (m : Sys σ) :
    List CheckResult × Sys σ :=
  if !commandExists os "go" m then ([], m)
  else
    let fmtResult := runGoFmt os a files m
    let vetResult := runGoVet os a fmtResult.2
    if commandExists os "golangci-lint" vetResult.2 then
      let lintResult := runGolangciLint os a files vetResult.2
      ([fmtResult.1, vetResult.1, lintResult.1], lintResult.2)
    else ([fmtResult.1, vetResult.1], vetResult.2)

/-- Go `Analyzer.checkDart`. -/
def checkDart {σ : Type} (os : OS σ) (a : Analyzer) (_files : List String) (m : Sys σ) :
    List CheckResult × Sys σ :=
  if !commandExists os "dart" m then ([], m)
  else
    let dart := runCombined os { dir := a.repoPath, argv := ["dart", "analyze"], timeout := none }
      "dart analyze" "" "Dart analysis found issues" "No Dart issues found" m
    if commandExists os "flutter" dart.2 then
      let flutter :=
        runCombined os { dir := a.repoPath, argv := ["flutter", "analyze"], timeout := none }
          "flutter analyze" "" "Flutter analysis found issues" "No Flutter issues found" dart.2
      ([dart.1, flutter.1], flutter.2)
    else ([dart.1], dart.2)

/-- Loop of Go `Analyzer.checkBash`: one `shellcheck` run per file; `cmd.Dir` is
not set. -/
def checkBashLoop {σ : Type} (os : OS σ) : List String → Sys σ → List CheckResult × Sys σ
  | [], m => ([], m)
  | file :: rest, m =>
    let p := runCombined os { dir := "", argv := ["shellcheck", "-f", "gcc", file], timeout := none }
      "shellcheck" file "Shellcheck found issues" "No shell script issues" m
    let q := checkBashLoop os rest p.2
    (p.1 :: q.1, q.2)

/-- Go `Analyzer.checkBash`. -/
def checkBash {σ : Type} (os : OS σ) (_a : Analyzer) (files : List String) (m : Sys σ) :
    List CheckResult × Sys σ :=
  if !commandExists os "shellcheck" m then ([], m)
  else checkBashLoop os files m

/-- Go `Analyzer.checkJavaScript`. -/
def checkJavaScript {σ : Type} (os : OS σ) (a : Analyzer) (files : List String) (m : Sys σ) :
    List CheckResult × Sys σ :=
  if !commandExists os "eslint" m then ([], m)
  else
    let p := runCombined os { dir := a.repoPath, argv := ["eslint"] ++ files, timeout := none }
      "eslint" "" "ESLint found issues" "No ESLint issues found" m
    ([p.1], p.2)

/-- Go `Analyzer.RunChecks`. -/
def RunChecks {σ : Type} (os : OS σ) (a : Analyzer) (files : List String) (m : Sys σ) :
    List CheckResult × Sys σ :=
  let m0 := record (Action.RunChecks a.repoPath files) m
  let filesByType := groupFilesByType os files m0
  let goFiles := mapIndex filesByType "go"
  let r1 := if goFiles.length > 0 then checkGo os a goFiles m0 else ([], m0)
  let dartFiles := mapIndex filesByType "dart"
  let r2 := if dartFiles.length > 0 then checkDart os a dartFiles r1.2 else ([], r1.2)
  let bashFiles := mapIndex filesByType "bash"
  let r3 := if bashFiles.length > 0 then checkBash os a bashFiles r2.2 else ([], r2.2)
  let jsFiles := mapIndex filesByType "js"
  let r4 := if jsFiles.length > 0 then checkJavaScript os a jsFiles r3.2 else ([], r3.2)
  (r1.1 ++ r2.1 ++ r3.1 ++ r4.1, r4.2)

/-! ## main.go: tool handlers -/

/-- Go `git.Commit`. -/
structure Commit where
  Hash : String
  Author : String
  Date : String
  Message : String
  Files : List String
  Diff : String
deriving DecidableEq, Repr

/-- The git collaborator (`pkg/git`) at its boundary: `GetUnpushedCommits` of
the analyzer for a repository path, given remote and branch, acting on the
world; and `GetChangedFiles`, which only reads its arguments. -/
structure GitLib (σ : Type) where
  GetUnpushedCommits : String → String → String → σ → Except String (List Commit) × σ
  GetChangedFiles : String → List Commit → List String

/-- Input struct of `handleRunChecks`. -/
structure RunChecksInput where
  RepoPath : String
  Files : List String

/-- Input struct of `handleRunTests`. -/
structure RunTestsInput where
  RepoPath : String
  ConfigPath : String

/-- Input struct of `handleValidatePush`. -/
structure ValidatePushInput where
  RepoPath : String
  Remote : String
  Branch : String
  ConfigPath : String

/-- The calls `json.Unmarshal(params, &input)` of the three handlers. -/
structure ParamsLib where
  unmarshalRunChecks : RawMessage → Except String RunChecksInput
  unmarshalRunTests : RawMessage → Except String RunTestsInput
  unmarshalValidatePush : RawMessage → Except String ValidatePushInput

/-- The map returned by `handleRunChecks`: keys `success` and `results`. -/
structure RunChecksOutput where
  success : Bool
  results : List CheckResult
deriving DecidableEq, Repr

/-- The map returned by `handleRunTests`: keys `success` and `results`. -/
structure RunTestsOutput where
  success : Bool
  results : List TestResult
deriving DecidableEq, Repr

/-- The map returned by `handleValidatePush`; a key the map does not have is
`none`. -/
structure ValidatePushOutput where
  success : Bool
  message : Option String
  commits : Option Nat
  changed_files : Option Nat
  checks : Option (List CheckResult)
  tests : Option (List TestResult)
deriving DecidableEq, Repr

/-- The loop of `handleRunChecks` and `handleValidatePush` that sets
`hasErrors` (`hasCheckErrors`) at the first result with `!result.Success`. -/
def hasCheckErrors : List CheckResult → Bool
  | [] => false
  | result :: rest => if !result.Success then true else hasCheckErrors rest

/-- The loop of `handleRunTests` and `handleValidatePush` that sets
`hasBlockingFailures` (`hasBlockingTestFailures`) at the first result with
`!result.Success && result.Blocking`. -/
def hasBlockingTestFailures : List TestResult → Bool
  | [] => false
  | result :: rest =>
    if !result.Success && result.Blocking then true else hasBlockingTestFailures rest

/-- The defaulting statement `if input.X == "" then input.X = d` of the handlers. -/
def orDefault (value default : String) : String :=
  if value = "" then default else value

/-- Entry into `GetUnpushedCommits` of the git collaborator. -/
def GetUnpushedCommits {σ : Type} (G : GitLib σ) (repoPath remote branch : String) (m : Sys σ) :
    Except String (List Commit) × Sys σ :=
  let r := G.GetUnpushedCommits repoPath remote branch m.world
  (r.1, { world := r.2, trace := m.trace ++ [Action.GetUnpushedCommits repoPath remote branch] })

/-- Go `handleRunChecks`. -/
def handleRunChecks {σ : Type} (os : OS σ) (P : ParamsLib) (params : RawMessage) (m : Sys σ) :
    Except String RunChecksOutput × Sys σ :=
  match P.unmarshalRunChecks params with
  | .error err => (.error ("invalid parameters: " ++ err), m)
  | .ok input =>
    let repoPath := orDefault input.RepoPath "."
    let analyzer := NewAnalyzer repoPath
    let results := RunChecks os analyzer input.Files m
    let hasErrors := hasCheckErrors results.1
    (.ok { success := !hasErrors, results := results.1 }, results.2)

/-- Go `handleRunTests`. -/
def handleRunTests {σ : Type} (os : OS σ) (Y : YAMLLib) (P : ParamsLib) (params : RawMessage)
    (m : Sys σ) : Except String RunTestsOutput × Sys σ :=
  match P.unmarshalRunTests params with
  | .error err => (.error ("invalid parameters: " ++ err), m)
  | .ok input =>
    let repoPath := orDefault input.RepoPath "."
    let configPath := orDefault input.ConfigPath ".mcp.yml"
    let loaded := Load os Y configPath m
    match loaded.1 with
    | .error err => (.error ("failed to load config: " ++ err), loaded.2)
    | .ok cfg =>
      let runner := NewRunner repoPath cfg
      let results := RunAll os runner loaded.2
      let hasBlockingFailures := hasBlockingTestFailures results.1
      (.ok { success := !hasBlockingFailures, results := results.1 }, results.2)

/-- Go `handleValidatePush`. -/
def handleValidatePush {σ : Type} (os : OS σ) (Y : YAMLLib) (P : ParamsLib) (G : GitLib σ)
    (params : RawMessage) (m : Sys σ) : Except String ValidatePushOutput × Sys σ :=
  match P.unmarshalValidatePush params with
  | .error err => (.error ("invalid parameters: " ++ err), m)
  | .ok input =>
    let repoPath := orDefault input.RepoPath "."
    let remote := orDefault input.Remote "origin"
    let configPath := orDefault input.ConfigPath ".mcp.yml"
    let got := GetUnpushedCommits G repoPath remote input.Branch m
    match got.1 with
    | .error err => (.error ("failed to get unpushed commits: " ++ err), got.2)
    | .ok commits =>
      if commits.length = 0 then
        (.ok { success := true, message := some "No unpushed commits to validate",
               commits := none, changed_files := none, checks := none, tests := none }, got.2)
      else
        let changedFiles := G.GetChangedFiles repoPath commits
        let analyzer := NewAnalyzer repoPath
        let checkResults := RunChecks os analyzer changedFiles got.2
        let hasErrors := hasCheckErrors checkResults.1
        let loaded := Load os Y configPath checkResults.2
        let ran : List TestResult × Sys σ :=
          match loaded.1 with
          | .error _ => ([], loaded.2)
          | .ok cfg => RunAll os (NewRunner repoPath cfg) loaded.2
        let hasBlocking :=
          match loaded.1 with
          | .error _ => false
          | .ok _ => hasBlockingTestFailures ran.1
        let success := !hasErrors && !hasBlocking
        (.ok { success := success, message := none, commits := some commits.length,
               changed_files := some changedFiles.length, checks := some checkResults.1,
               tests := some ran.1 }, ran.2)

/-! ## pkg/mcp/server.go: the read loop -/

/-- The call `json.Unmarshal(line, &req)` of `Start`, on a line that still ends
in its newline. -/
structure RequestLib where
  unmarshalRequest : String → Except String Request

/-- The input stream behind `s.reader`: the bytes that can still be read, and
the error the stream reports once they are used up (`none` for `io.EOF`). -/
structure Reader where
  data : List Char
  err : Option String

/-- The loop of Go `Server.Start` with the scan of `s.reader.ReadBytes` for the
newline written out: `cur` holds the bytes of the current line read so far. At
a newline the line, newline included, is decoded and handled. When the bytes
are used up `ReadBytes` returns the stream's error and `Start` returns, `nil`
for `io.EOF` and a read error otherwise, without looking at the bytes in `cur`. -/
def startLoop {σ ρ : Type} (D : RequestLib) (J : JSONLib ρ) (s : Server σ ρ) :
    List Char → List Char → Option String → Conn σ → Option String × Conn σ
  | [], _, err, c =>
    match err with
    | none => (none, c)
    | some e => (some ("read error: " ++ e), c)
  | ch :: rest, cur, err, c =>
    if ch = '\n' then
      match D.unmarshalRequest (String.mk (cur ++ ['\n'])) with
      | .error e =>
        startLoop D J s rest [] err (sendError none (-32700) ("Parse error: " ++ e) c)
      | .ok req => startLoop D J s rest [] err (handleRequest J s req c)
    else startLoop D J s rest (cur ++ [ch]) err c

/-- Go `Server.Start`: the returned error (`none` for `nil`) and the final state. -/
def Start {σ ρ : Type} (D : RequestLib) (J : JSONLib ρ) (s : Server σ ρ) (r : Reader)
    (c : Conn σ) : Option String × Conn σ :=
  startLoop D J s r.data [] r.err (logPrintf "MCP server starting..." c)

/-- A connection in the world `w` on which nothing was written, logged or
invoked. -/
def Conn.blank {σ : Type} (w : σ) : Conn σ :=
  { world := w, written := [], logged := [], invoked := [] }

/-- The connection `c` followed by what happened on `e`: the world of `e`, and
the lines, log lines and invocations of `c` followed by those of `e`. -/
def Conn.after {σ : Type} (c e : Conn σ) : Conn σ :=
  { world := e.world, written := c.written ++ e.written, logged := c.logged ++ e.logged,
    invoked := c.invoked ++ e.invoked }

/-- A response has exactly one of its two payload fields set: a result and no
error, or an error and no result. -/
def Response.exactlyOne (r : Response) : Prop :=
  (r.Result.isSome = true ∧ r.Error.isNone = true) ∨
    (r.Result.isNone = true ∧ r.Error.isSome = true)

/-- A step of the dispatcher acts on a connection only through its world and
only by appending: on any connection it does what it does on the blank
connection of the same world, after what was already there. -/
def Framed {σ : Type} (f : Conn σ → Conn σ) : Prop :=
  ∀ c, f c = c.after (f (Conn.blank c.world))

/-! ## pkg/config/config.go: validation -/

/-- Loop of Go `Config.Validate` over the tests: the error of the first test
that breaks a rule, `none` when there is none. -/
def validateLoop : List TestConfig → Option String
  | [] => none
  | test :: rest =>
    if test.Name = "" then some "test name cannot be empty"
    else if test.Command = "" then
      some ("test command cannot be empty for test '" ++ test.Name ++ "'")
    else if test.Timeout < 0 then
      some ("test timeout must be positive for test '" ++ test.Name ++ "'")
    else validateLoop rest

/-- Go `Config.Validate`: the returned error, `none` for `nil`. -/
def Validate (c : Config) : Option String :=
  if c.Tests.length = 0 then some "no tests configured" else validateLoop c.Tests

/-! ## Statements of the check runner's contract -/

/-- The extension table of each file category as the contract states it: `go`
has `.go`; `dart` has `.dart`; `bash` has `.sh` and `.bash`; `js` has `.js`,
`.jsx`, `.ts` and `.tsx`; any other name is no category. -/
def specExtensions : String → List String
  | "go" => [".go"]
  | "dart" => [".dart"]
  | "bash" => [".sh", ".bash"]
  | "js" => [".js", ".jsx", ".ts", ".tsx"]
  | _ => []

/-- The contract's classification of one path under a file-existence predicate:
the path belongs to `category` when it exists and its extension in lower case is
in the table of the category. -/
def specBelongs (pathExists : String → Bool) (category : String) (file : String) : Bool :=
  pathExists file && (specExtensions category).contains (ToLower (Ext file))

/-- The errors of `os.Stat(path)` told apart here: no such file or directory
(`ENOENT`), a component of the path prefix is not a directory (`ENOTDIR`), and
search permission denied on a component (`EACCES`). -/
inductive StatError where
  | ENOENT
  | ENOTDIR
  | EACCES
deriving DecidableEq, Repr

/-- Go `os.IsNotExist` on the error of `os.Stat`, `none` being the nil error: it
holds of `ENOENT` only. -/
def IsNotExist : Option StatError → Bool
  | some StatError.ENOENT => true
  | _ => false

/-- The sequence of tool names the contract states for `RunChecks`, read with
"available" as "the provider's own executable is on the path" in the world `w`:
for each non-empty category, in the order go, dart, bash, js, the available
providers in their fixed order, `shellcheck` once per shell file. -/
def specToolNames {σ : Type} (os : OS σ) (w : σ) (groups : List (String × List String)) :
    List String :=
  let available := fun (p : String × String) => os.lookPath p.2 w
  let goNames :=
    if (mapIndex groups "go").length > 0 then
      ([("gofmt", "gofmt"), ("go vet", "go"), ("golangci-lint", "golangci-lint")].filter
        available).map Prod.fst
    else []
  let dartNames :=
    if (mapIndex groups "dart").length > 0 then
      ([("dart analyze", "dart"), ("flutter analyze", "flutter")].filter available).map Prod.fst
    else []
  let bashNames :=
    if os.lookPath "shellcheck" w then (mapIndex groups "bash").map fun _ => "shellcheck" else []
  let jsNames :=
    if (mapIndex groups "js").length > 0 then
      ([("eslint", "eslint")].filter available).map Prod.fst
    else []
  goNames ++ dartNames ++ bashNames ++ jsNames

/-! ## Concrete inputs of the closed theorems -/

/-- A JSON library on results of type `Unit` whose decoder rejects every
parameter payload, as `json.Unmarshal` does for absent params. -/
def noParamsLib : JSONLib Unit :=
  { unmarshalParams := fun _ => .error "unexpected end of JSON input",
    marshalIndent := fun _ => .ok "null",
    sprint := fun _ => "<nil>" }

/-- A JSON library on results of type `Unit` whose decoder reads every
parameter payload as a call of the tool `nope` with arguments `[1]`. -/
def nopeParamsLib : JSONLib Unit :=
  { unmarshalParams := fun _ => .ok { Name := "nope", Arguments := "[1]" },
    marshalIndent := fun _ => .ok "null",
    sprint := fun _ => "<nil>" }

/-- A connection on which nothing has happened yet. -/
def freshConn : Conn Unit :=
  { world := (), written := [], logged := [], invoked := [] }

/-- The blocking test `unit` of the two-test configuration. -/
def unitSpec : TestConfig :=
  { Name := "unit", Command := "true", Blocking := true, Timeout := 5 }

/-- The non-blocking test `lint-opt` of the two-test configuration. -/
def lintOptSpec : TestConfig :=
  { Name := "lint-opt", Command := "false", Blocking := false, Timeout := 5 }

/-- An operating system over a one-point world: the command `true` exits with
status 0, every other command with status 1; no program is on the path, no file
exists, and every file reads as the same configuration text. -/
def exampleOS : OS Unit :=
  { exec := fun cmd w =>
      ({ stdout := "", stderr := "", combined := "",
         err := if cmd.argv = ["true"] then none else some "exit status 1",
         deadlineExceeded := false, elapsed := 1000 }, w),
    lookPath := fun _ _ => false,
    notExist := fun _ _ => true,
    readFile := fun _ _ => .ok "tests: [unit, lint-opt]" }

/-- A YAML decoder that reads every text as the two-test configuration. -/
def exampleYAML : YAMLLib :=
  { unmarshal := fun _ => .ok { Tests := [unitSpec, lintOptSpec] } }

/-- A parameter decoder that reads every payload as the empty object. -/
def exampleParams : ParamsLib :=
  { unmarshalRunChecks := fun _ => .ok { RepoPath := "", Files := [] },
    unmarshalRunTests := fun _ => .ok { RepoPath := "", ConfigPath := "" },
    unmarshalValidatePush := fun _ =>
      .ok { RepoPath := "", Remote := "", Branch := "", ConfigPath := "" } }

/-- One commit touching `main.go`. -/
def exampleCommit : Commit :=
  { Hash := "abc", Author := "dev", Date := "2024-01-01", Message := "change",
    Files := ["main.go"], Diff := "" }

/-- A git collaborator that reports one unpushed commit. -/
def oneCommitGit : GitLib Unit :=
  { GetUnpushedCommits := fun _ _ _ w => (.ok [exampleCommit], w),
    GetChangedFiles := fun _ _ => ["main.go"] }

/-- A git collaborator that reports no unpushed commit. -/
def noCommitGit : GitLib Unit :=
  { GetUnpushedCommits := fun _ _ _ w => (.ok [], w),
    GetChangedFiles := fun _ _ => [] }

/-- The state before anything happened. -/
def freshSys : Sys Unit :=
  { world := (), trace := [] }

/-- A test spec whose command is three blanks. -/
def blankSpec : TestConfig :=
  { Name := "unit", Command := "   ", Blocking := true, Timeout := 5 }

/-- An operating system over a one-point world on which every command exits
with status 1, no program is on the path, no file exists and no file can be
read. -/
def failingOS : OS Unit :=
  { exec := fun _ w =>
      ({ stdout := "", stderr := "", combined := "", err := some "exit status 1",
         deadlineExceeded := false, elapsed := 1 }, w),
    lookPath := fun _ _ => false,
    notExist := fun _ _ => true,
    readFile := fun _ _ => .error "no such file or directory" }

/-- An operating system over a one-point world on which `go` is on the path and
nothing else is: every file exists, a command whose program is `go` exits with
status 0, and every other command cannot be started. -/
def gofmtMissingOS : OS Unit :=
  { exec := fun cmd w =>
      ({ stdout := "", stderr := "", combined := "",
         err := if cmd.argv.head? = some "go" then none
                else some "executable file not found in $PATH",
         deadlineExceeded := false, elapsed := 1000 }, w),
    lookPath := fun name _ => name = "go",
    notExist := fun _ _ => false,
    readFile := fun _ _ => .error "no such file or directory" }

/-- A parameter decoder that reads every payload as a request on `main.go`. -/
def mainGoParams : ParamsLib :=
  { unmarshalRunChecks := fun _ => .ok { RepoPath := "", Files := ["main.go"] },
    unmarshalRunTests := fun _ => .ok { RepoPath := "", ConfigPath := "" },
    unmarshalValidatePush := fun _ =>
      .ok { RepoPath := "", Remote := "", Branch := "", ConfigPath := "" } }

/-- A request decoder that reads the line `ping` as a `ping` request with id 1
and rejects every other line. -/
def pingOnlyLib : RequestLib :=
  { unmarshalRequest := fun line =>
      if line = "ping\n" then
        .ok { JSONRPC := "2.0", ID := some { text := "1" }, Method := "ping", Params := "" }
      else .error "invalid character" }

/-- A JSON library on results of type `String` that cannot serialise any
result, as `json.MarshalIndent` cannot serialise the floating-point value NaN,
and formats every result as itself. -/
def nanLib : JSONLib String :=
  { unmarshalParams := fun _ => .ok { Name := "measure", Arguments := "[]" },
    marshalIndent := fun _ => .error "json: unsupported value: NaN",
    sprint := fun v => v }

/-- A registry with the one tool `measure`, whose handler returns `NaN`. -/
def nanServer : Server Unit String :=
  RegisterTool (NewServer Unit String) "measure" "Measure something"
    (fun _ w => (.ok "NaN", w))

/-- A test spec that breaks all three validation rules: no name, no command, a
negative timeout. -/
def invalidSpec : TestConfig :=
  { Name := "", Command := "", Blocking := true, Timeout := -5 }

/-- A YAML decoder that reads every text as the configuration with the one test
`invalidSpec`. -/
def invalidYAML : YAMLLib :=
  { unmarshal := fun _ => .ok { Tests := [invalidSpec] } }

/-- A YAML decoder that reads every text as the configuration of the tests
`unit` with no timeout set and `lint-opt` with timeout 5. -/
def defaultingYAML : YAMLLib :=
  { unmarshal := fun _ => .ok { Tests := [{ unitSpec with Timeout := 0 }, lintOptSpec] } }

/-- An operating system over a one-point world on which every command is killed
at its deadline. -/
def slowOS : OS Unit :=
  { exec := fun _ w =>
      ({ stdout := "", stderr := "", combined := "", err := some "signal: killed",
         deadlineExceeded := true, elapsed := 1000000000 }, w),
    lookPath := fun _ _ => false,
    notExist := fun _ _ => true,
    readFile := fun _ _ => .error "no such file or directory" }

/-- A test that sleeps five seconds under a deadline of one second. -/
def sleepSpec : TestConfig :=
  { Name := "slow", Command := "sleep 5", Blocking := true, Timeout := 1 }

/-- An operating system over a one-point world on which `golangci-lint` is on
the path and nothing else is; every file exists and every command exits with
status 0. -/
def lintOnlyOS : OS Unit :=
  { exec := fun _ w =>
      ({ stdout := "", stderr := "", combined := "", err := none,
         deadlineExceeded := false, elapsed := 1000 }, w),
    lookPath := fun name _ => name = "golangci-lint",
    notExist := fun _ _ => false,
    readFile := fun _ _ => .error "no such file or directory" }

/-- An operating system over a one-point world on which every program is on the
path, every file exists and every command exits with status 0. -/
def allToolsOS : OS Unit :=
  { exec := fun _ w =>
      ({ stdout := "", stderr := "", combined := "", err := none,
         deadlineExceeded := false, elapsed := 1000 }, w),
    lookPath := fun _ _ => true,
    notExist := fun _ _ => false,
    readFile := fun _ _ => .error "no such file or directory" }

/-- The operating system `allToolsOS` with every command exiting with status 1. -/
def allFailOS : OS Unit :=
  { exec := fun _ w =>
      ({ stdout := "", stderr := "", combined := "boom", err := some "exit status 1",
         deadlineExceeded := false, elapsed := 1000 }, w),
    lookPath := fun _ _ => true,
    notExist := fun _ _ => false,
    readFile := fun _ _ => .error "no such file or directory" }

/-- A request decoder that reads `ping`, with or without a newline after it, as
a `ping` request with id 1 and rejects every other text. -/
def pingLib : RequestLib :=
  { unmarshalRequest := fun line =>
      if line = "ping\n" ∨ line = "ping" then
        .ok { JSONRPC := "2.0", ID := some { text := "1" }, Method := "ping", Params := "" }
      else .error "invalid character" }

/-- An operating system over a one-point world on which every command runs
until its context deadline and is killed then: the elapsed time is the deadline
it was given. A command without a deadline exits with status 0. -/
def deadlineOS : OS Unit :=
  { exec := fun cmd w =>
      match cmd.timeout with
      | some d =>
        ({ stdout := "", stderr := "", combined := "", err := some "signal: killed",
           deadlineExceeded := true, elapsed := d.toNat }, w)
      | none =>
        ({ stdout := "", stderr := "", combined := "", err := none,
           deadlineExceeded := false, elapsed := 1000 }, w),
    lookPath := fun _ _ => false,
    notExist := fun _ _ => true,
    readFile := fun _ _ => .error "no such file or directory" }

/-- A test that sleeps five seconds under a timeout of 18446744074 seconds. -/
def wrappingSpec : TestConfig :=
  { Name := "slow", Command := "sleep 5", Blocking := true, Timeout := 18446744074 }

/-- What `os.Stat` reports in a file tree that holds the regular file `plain`
and the file `lib/Util.GO` in the directory `lib`, and nothing else: below the
regular file `plain` the error is `ENOTDIR`. -/
def treeStat : String → Option StatError
  | "plain" => none
  | "lib" => none
  | "lib/Util.GO" => none
  | "plain/x.go" => some StatError.ENOTDIR
  | _ => some StatError.ENOENT

/-- The paths that exist in the file tree of `treeStat`. -/
def treeExists (path : String) : Bool :=
  (treeStat path).isNone

/-- An operating system over a one-point world with the file tree of
`treeStat`; no program is on the path. -/
def treeOS : OS Unit :=
  { exec := fun _ w =>
      ({ stdout := "", stderr := "", combined := "", err := none,
         deadlineExceeded := false, elapsed := 1000 }, w),
    lookPath := fun _ _ => false,
    notExist := fun file _ => IsNotExist (treeStat file),
    readFile := fun _ _ => .error "no such file or directory" }

/-! ## Protocol dispatcher -/

/-- Every path of `handleToolCall` writes one response carrying the request id. -/
theorem handleToolCall_written {σ ρ : Type} (J : JSONLib ρ) (s : Server σ ρ) (req : Request)
    (c : Conn σ) :
    ∃ resp, (handleToolCall J s req c).written = c.written ++ [resp] ∧ resp.ID = req.ID := by
  unfold handleToolCall
  split
  · exact ⟨_, rfl, rfl⟩
  · dsimp only
    split
    · exact ⟨_, rfl, rfl⟩
    · split
      · exact ⟨_, rfl, rfl⟩
      · exact ⟨_, rfl, rfl⟩

/-- The line logged at the entry of `handleRequest` leaves the written responses as they are. -/
theorem entryLog_written {σ : Type} (req : Request) (c : Conn σ) :
    (if req.Method ≠ "resources/list" ∧ req.Method ≠ "prompts/list" ∧ req.Method ≠ "ping"
      then logPrintf ("Handling method: " ++ req.Method) c else c).written = c.written := by
  split <;> rfl

/-- C1 (amended): for every registry and every request whose id is present
and non-null and whose method is neither `initialized` nor
`notifications/initialized`, `handleRequest` writes exactly one response, and
the id of that response is the id of the request. -/
theorem handleRequest_one_response {σ ρ : Type} (J : JSONLib ρ) (s : Server σ ρ) (req : Request)
    (c : Conn σ) (hid : req.ID ≠ none) (h1 : req.Method ≠ "initialized")
    (h2 : req.Method ≠ "notifications/initialized") :
    ∃ resp, (handleRequest J s req c).written = c.written ++ [resp] ∧ resp.ID = req.ID := by
  have hlog := entryLog_written req c
  unfold handleRequest
  dsimp only
  generalize (if req.Method ≠ "resources/list" ∧ req.Method ≠ "prompts/list" ∧ req.Method ≠ "ping"
      then logPrintf ("Handling method: " ++ req.Method) c else c) = c0 at hlog ⊢
  rw [← hlog]
  split
  · exact ⟨_, rfl, rfl⟩
  · exact absurd (by assumption) h1
  · exact absurd (by assumption) h2
  · exact ⟨_, rfl, rfl⟩
  · exact handleToolCall_written J s req c0
  · exact ⟨_, rfl, rfl⟩
  · exact ⟨_, rfl, rfl⟩
  · exact ⟨_, rfl, rfl⟩
  · have hn : req.ID.isNone = false := by
      cases h : req.ID with
      | none => exact absurd h hid
      | some v => rfl
    rw [if_neg (by simp [hn])]
    exact ⟨_, rfl, rfl⟩

/-- C1 (witness): a `ping` request with id `1`. -/
theorem handleRequest_one_response_witness :
    ∃ resp, (handleRequest noParamsLib (NewServer Unit Unit)
        (Request.mk "2.0" (some { text := "1" }) "ping" "") freshConn).written =
      freshConn.written ++ [resp] ∧ resp.ID = some { text := "1" } :=
  handleRequest_one_response noParamsLib (NewServer Unit Unit)
    (Request.mk "2.0" (some { text := "1" }) "ping" "") freshConn
    (by simp) (by decide) (by decide)

/-- C1 (counterexample): a request with the present, non-null id `1` and the
method `initialized` gets no response line at all, so it is not the case that
exactly one response carrying its id is written. -/
theorem handleRequest_initialized_with_id_writes_nothing :
    (Request.mk "2.0" (some { text := "1" }) "initialized" "").ID ≠ none ∧
    (handleRequest noParamsLib (NewServer Unit Unit)
      (Request.mk "2.0" (some { text := "1" }) "initialized" "") freshConn).written = [] ∧
    ¬ ∃ resp, (handleRequest noParamsLib (NewServer Unit Unit)
        (Request.mk "2.0" (some { text := "1" }) "initialized" "") freshConn).written =
      freshConn.written ++ [resp] ∧ resp.ID = some { text := "1" } := by
  refine ⟨by simp, rfl, ?_⟩
  rintro ⟨resp, h, _⟩
  have h0 : (handleRequest noParamsLib (NewServer Unit Unit)
      (Request.mk "2.0" (some { text := "1" }) "initialized" "") freshConn).written = [] := rfl
  rw [h0] at h
  simp [freshConn] at h

/-- C2 (the code at the failing inputs): a `ping` and a `tools/call` whose id
is absent are notifications, yet `handleRequest` writes one response line for
each: a success response and an error response with code -32602, both with a
null id. -/
theorem handleRequest_notification_gets_response {σ ρ : Type} (J : JSONLib ρ) (s : Server σ ρ)
    (c : Conn σ) :
    (handleRequest J s (Request.mk "2.0" none "ping" "") c).written =
        c.written ++ [{ JSONRPC := "2.0", ID := none, Result := some (.obj []), Error := none }] ∧
      (handleRequest noParamsLib (NewServer Unit Unit) (Request.mk "2.0" none "tools/call" "")
          freshConn).written =
        [{ JSONRPC := "2.0", ID := none, Result := none,
           Error := some { Code := -32602,
                           Message := "Invalid params: unexpected end of JSON input" } }] :=
  ⟨rfl, rfl⟩

/-- C3: when the decoded params of a `tools/call` request name a tool that is
not a key of the registry, `handleToolCall` (and `handleRequest` dispatching to
it) invokes no handler, leaves the world as it is and writes exactly one
response: an error response with code -32602, no result and the request id,
whatever the arguments payload is. -/
theorem handleToolCall_unknown_tool {σ ρ : Type} (J : JSONLib ρ) (s : Server σ ρ) (req : Request)
    (c : Conn σ) (params : ToolCallParams)
    (hparams : J.unmarshalParams req.Params = .ok params)
    (hunknown : s.tools.lookup params.Name = none) :
    ((handleToolCall J s req c).written =
        c.written ++ [{ JSONRPC := "2.0", ID := req.ID, Result := none,
                        Error := some { Code := -32602,
                                        Message := "Tool not found: " ++ params.Name } }] ∧
      (handleToolCall J s req c).invoked = c.invoked ∧
      (handleToolCall J s req c).world = c.world) ∧
    (req.Method = "tools/call" →
      (handleRequest J s req c).written =
        c.written ++ [{ JSONRPC := "2.0", ID := req.ID, Result := none,
                        Error := some { Code := -32602,
                                        Message := "Tool not found: " ++ params.Name } }] ∧
      (handleRequest J s req c).invoked = c.invoked ∧
      (handleRequest J s req c).world = c.world) := by
  have key : ∀ c1 : Conn σ,
      (handleToolCall J s req c1).written =
        c1.written ++ [{ JSONRPC := "2.0", ID := req.ID, Result := none,
                         Error := some { Code := -32602,
                                         Message := "Tool not found: " ++ params.Name } }] ∧
      (handleToolCall J s req c1).invoked = c1.invoked ∧
      (handleToolCall J s req c1).world = c1.world := by
    intro c1
    unfold handleToolCall
    rw [hparams]
    dsimp only
    rw [hunknown]
    exact ⟨rfl, rfl, rfl⟩
  refine ⟨key c, ?_⟩
  intro hm
  have hreq : (handleRequest J s req c) =
      handleToolCall J s req (logPrintf ("Handling method: " ++ req.Method) c) := by
    unfold handleRequest
    rw [hm]
    rfl
  rw [hreq]
  exact key _

/-- C3 (witness): the tool `nope` on an empty registry. -/
theorem handleToolCall_unknown_tool_witness :
    (handleToolCall nopeParamsLib (NewServer Unit Unit)
        (Request.mk "2.0" (some { text := "7" }) "tools/call" "x") freshConn).written =
      [{ JSONRPC := "2.0", ID := some { text := "7" }, Result := none,
         Error := some { Code := -32602, Message := "Tool not found: nope" } }] :=
  (handleToolCall_unknown_tool nopeParamsLib (NewServer Unit Unit)
    (Request.mk "2.0" (some { text := "7" }) "tools/call" "x") freshConn
    { Name := "nope", Arguments := "[1]" } rfl rfl).1.1

/-! ## Aggregation loops -/

/-- The check loop reports an error exactly when some result failed. -/
theorem hasCheckErrors_iff (results : List CheckResult) :
    hasCheckErrors results = true ↔ ∃ r ∈ results, r.Success = false := by
  induction results with
  | nil => simp [hasCheckErrors]
  | cons r rest ih =>
    unfold hasCheckErrors
    cases hr : r.Success <;> simp [hr, ih]

/-- The check loop computes the negated conjunction of the success flags. -/
theorem hasCheckErrors_eq_all (results : List CheckResult) :
    (!hasCheckErrors results) = results.all fun r => r.Success := by
  induction results with
  | nil => rfl
  | cons r rest ih =>
    unfold hasCheckErrors
    cases hr : r.Success <;> simp [hr, ← ih]

/-- The test loop reports a failure exactly when some blocking test failed. -/
theorem hasBlockingTestFailures_iff (results : List TestResult) :
    hasBlockingTestFailures results = true ↔
      ∃ t ∈ results, t.Success = false ∧ t.Blocking = true := by
  induction results with
  | nil => simp [hasBlockingTestFailures]
  | cons r rest ih =>
    unfold hasBlockingTestFailures
    cases hr : r.Success <;> cases hb : r.Blocking <;> simp [hr, hb, ih]

/-- Flipping the success flag of non-blocking tests leaves the test loop's answer as it is. -/
theorem hasBlockingTestFailures_flip (tests tests2 : List TestResult)
    (h : List.Forall₂ (fun t t2 : TestResult =>
      t2 = t ∨ (t.Blocking = false ∧ ∃ b, t2 = { t with Success := b })) tests tests2) :
    hasBlockingTestFailures tests2 = hasBlockingTestFailures tests := by
  induction h with
  | nil => rfl
  | cons hab _ ih =>
    rcases hab with rfl | ⟨hb, b, rfl⟩
    · simp [hasBlockingTestFailures, ih]
    · simp [hasBlockingTestFailures, ih, hb]

/-! ## Test runner -/

/-- The result of `runTest` carries the name of its spec. -/
theorem runTest_name {σ : Type} (os : OS σ) (r : Runner) (tc : TestConfig) (m : Sys σ) :
    (runTest os r tc m).1.Name = tc.Name := by
  unfold runTest
  dsimp only
  split
  · rfl
  · split
    · rfl
    · split <;> rfl

/-- The result of `runTest` carries the blocking flag of its spec. -/
theorem runTest_blocking {σ : Type} (os : OS σ) (r : Runner) (tc : TestConfig) (m : Sys σ) :
    (runTest os r tc m).1.Blocking = tc.Blocking := by
  unfold runTest
  dsimp only
  split
  · rfl
  · split
    · rfl
    · split <;> rfl

/-- The loop of `RunAll` yields one result per spec. -/
theorem runAllLoop_length {σ : Type} (os : OS σ) (r : Runner) (tests : List TestConfig)
    (m : Sys σ) : (runAllLoop os r tests m).1.length = tests.length := by
  induction tests generalizing m with
  | nil => rfl
  | cons tc rest ih => simp [runAllLoop, ih]

/-- The loop of `RunAll` copies name and blocking flag of each spec, in order. -/
theorem runAllLoop_labels {σ : Type} (os : OS σ) (r : Runner) (tests : List TestConfig)
    (m : Sys σ) :
    (runAllLoop os r tests m).1.map (fun t => (t.Name, t.Blocking)) =
      tests.map (fun t => (t.Name, t.Blocking)) := by
  induction tests generalizing m with
  | nil => rfl
  | cons tc rest ih => simp [runAllLoop, ih, runTest_name, runTest_blocking]

/-- A string of white space has no fields. -/
theorem fieldsAux_all_space (cs : List Char) (h : ∀ c ∈ cs, isSpace c = true) :
    fieldsAux cs [] = [] := by
  induction cs with
  | nil => rfl
  | cons c rest ih =>
    have hc : isSpace c = true := h c (List.mem_cons_self c rest)
    have hrest : ∀ d ∈ rest, isSpace d = true := fun d hd => h d (List.mem_cons_of_mem c hd)
    simp [fieldsAux, hc, ih hrest]

/-! ## Tool handlers -/

/-- C4: when the parameters decode and the git collaborator returns a non-empty
list of commits, `handleValidatePush` returns a verdict whose `checks` are the
results of `RunChecks` on the changed files, whose `tests` are the results of
`RunAll` (none when the configuration does not load), and whose `success` is
true exactly when every check result has `Success = true` and no test result has
`Success = false` together with `Blocking = true`. The verdict computed by the
two loops is the same for every two lists of test results that differ only in
the success flag of tests with `Blocking = false`. -/
theorem handleValidatePush_verdict {σ : Type} (os : OS σ) (Y : YAMLLib) (P : ParamsLib)
    (G : GitLib σ) (params : RawMessage) (m : Sys σ) (input : ValidatePushInput)
    (commits : List Commit)
    (hparams : P.unmarshalValidatePush params = .ok input)
    (hgit : (G.GetUnpushedCommits (orDefault input.RepoPath ".") (orDefault input.Remote "origin")
      input.Branch m.world).1 = .ok commits)
    (hsome : commits ≠ []) :
    (let repoPath := orDefault input.RepoPath "."
     let got := GetUnpushedCommits G repoPath (orDefault input.Remote "origin") input.Branch m
     let checked := RunChecks os (NewAnalyzer repoPath) (G.GetChangedFiles repoPath commits) got.2
     let loaded := Load os Y (orDefault input.ConfigPath ".mcp.yml") checked.2
     let tests : List TestResult :=
       match loaded.1 with
       | .error _ => []
       | .ok cfg => (RunAll os (NewRunner repoPath cfg) loaded.2).1
     ∃ out, (handleValidatePush os Y P G params m).1 = .ok out ∧
       out.checks = some checked.1 ∧ out.tests = some tests ∧
       (out.success = true ↔
         (∀ c ∈ checked.1, c.Success = true) ∧
         ¬ ∃ t ∈ tests, t.Success = false ∧ t.Blocking = true)) ∧
    (∀ (checks : List CheckResult) (tests tests2 : List TestResult),
      List.Forall₂ (fun t t2 : TestResult =>
        t2 = t ∨ (t.Blocking = false ∧ ∃ b, t2 = { t with Success := b })) tests tests2 →
      (!hasCheckErrors checks && !hasBlockingTestFailures tests2) =
        (!hasCheckErrors checks && !hasBlockingTestFailures tests)) := by
  refine ⟨?_, fun checks tests tests2 h => by rw [hasBlockingTestFailures_flip tests tests2 h]⟩
  have hlen : ¬ commits.length = 0 := by
    intro h
    exact hsome (List.length_eq_zero.mp h)
  have hck : ∀ cs : List CheckResult,
      (!hasCheckErrors cs) = true ↔ ∀ c ∈ cs, c.Success = true := by
    intro cs
    rw [hasCheckErrors_eq_all]
    simp
  have hts : ∀ ts : List TestResult,
      (!hasBlockingTestFailures ts) = true ↔ ¬ ∃ t ∈ ts, t.Success = false ∧ t.Blocking = true := by
    intro ts
    rw [← hasBlockingTestFailures_iff]
    simp
  dsimp only
  unfold handleValidatePush
  rw [hparams]
  dsimp only [GetUnpushedCommits]
  rw [hgit]
  dsimp only
  rw [if_neg hlen]
  refine ⟨_, rfl, rfl, ?_, ?_⟩
  · cases hl : (Load os Y (orDefault input.ConfigPath ".mcp.yml")
      (RunChecks os (NewAnalyzer (orDefault input.RepoPath "."))
        (G.GetChangedFiles (orDefault input.RepoPath ".") commits)
        { world := (G.GetUnpushedCommits (orDefault input.RepoPath ".")
            (orDefault input.Remote "origin") input.Branch m.world).2,
          trace := m.trace ++ [Action.GetUnpushedCommits (orDefault input.RepoPath ".")
            (orDefault input.Remote "origin") input.Branch] }).2).1 <;> rfl
  · dsimp only
    rw [Bool.and_eq_true, hck]
    cases hl : (Load os Y (orDefault input.ConfigPath ".mcp.yml")
      (RunChecks os (NewAnalyzer (orDefault input.RepoPath "."))
        (G.GetChangedFiles (orDefault input.RepoPath ".") commits)
        { world := (G.GetUnpushedCommits (orDefault input.RepoPath ".")
            (orDefault input.Remote "origin") input.Branch m.world).2,
          trace := m.trace ++ [Action.GetUnpushedCommits (orDefault input.RepoPath ".")
            (orDefault input.Remote "origin") input.Branch] }).2).1 with
    | error e => simp
    | ok cfg =>
      dsimp only
      rw [hts]

/-- C4 (witness): one commit, no check result, a passing blocking test and a
failing non-blocking test: the verdict is `success = true`. -/
theorem handleValidatePush_verdict_witness :
    (handleValidatePush exampleOS exampleYAML exampleParams oneCommitGit "" freshSys).1 =
      .ok { success := true, message := none, commits := some 1, changed_files := some 1,
            checks := some [],
            tests := some [
              { Name := "unit", Success := true, Blocking := true, Duration := 1000,
                Output := "", Error := "" },
              { Name := "lint-opt", Success := false, Blocking := false, Duration := 1000,
                Output := "", Error := "exit status 1" }] } ∧
    ∀ (checks : List CheckResult) (tests tests2 : List TestResult),
      List.Forall₂ (fun t t2 : TestResult =>
        t2 = t ∨ (t.Blocking = false ∧ ∃ b, t2 = { t with Success := b })) tests tests2 →
      (!hasCheckErrors checks && !hasBlockingTestFailures tests2) =
        (!hasCheckErrors checks && !hasBlockingTestFailures tests) :=
  ⟨rfl, (handleValidatePush_verdict exampleOS exampleYAML exampleParams oneCommitGit "" freshSys
    { RepoPath := "", Remote := "", Branch := "", ConfigPath := "" } [exampleCommit] rfl rfl
    (by decide)).2⟩

/-- C5: when the parameters decode and the configuration loads,
`handleRunTests` returns a result whose `results` are the list returned by
`RunAll` and whose `success` is false exactly when some result has
`Success = false` together with `Blocking = true`. In particular, for a
configuration of two tests of which the first passes and the second, which is
not blocking, fails, the result has these two results in this order and
`success = true`. -/
theorem handleRunTests_success {σ : Type} (os : OS σ) (Y : YAMLLib) (P : ParamsLib)
    (params : RawMessage) (m : Sys σ) (input : RunTestsInput) (cfg : Config)
    (hparams : P.unmarshalRunTests params = .ok input)
    (hload : (Load os Y (orDefault input.ConfigPath ".mcp.yml") m).1 = .ok cfg) :
    (∃ out, (handleRunTests os Y P params m).1 = .ok out ∧
      out.results = (RunAll os (NewRunner (orDefault input.RepoPath ".") cfg)
        (Load os Y (orDefault input.ConfigPath ".mcp.yml") m).2).1 ∧
      (out.success = false ↔ ∃ t ∈ out.results, t.Success = false ∧ t.Blocking = true)) ∧
    (∀ first second : TestConfig, cfg.Tests = [first, second] → second.Blocking = false →
      let runner := NewRunner (orDefault input.RepoPath ".") cfg
      let m1 := record (Action.RunAll runner.repoPath)
        (Load os Y (orDefault input.ConfigPath ".mcp.yml") m).2
      let p1 := runTest os runner first m1
      let p2 := runTest os runner second p1.2
      p1.1.Success = true → p2.1.Success = false →
      (handleRunTests os Y P params m).1 = .ok { success := true, results := [p1.1, p2.1] }) := by
  have hres : (handleRunTests os Y P params m).1 =
      .ok (RunTestsOutput.mk
        (!hasBlockingTestFailures (RunAll os (NewRunner (orDefault input.RepoPath ".") cfg)
          (Load os Y (orDefault input.ConfigPath ".mcp.yml") m).2).1)
        (RunAll os (NewRunner (orDefault input.RepoPath ".") cfg)
          (Load os Y (orDefault input.ConfigPath ".mcp.yml") m).2).1) := by
    unfold handleRunTests
    rw [hparams]
    dsimp only
    rw [hload]
  refine ⟨⟨_, hres, rfl, ?_⟩, ?_⟩
  · dsimp only
    rw [← hasBlockingTestFailures_iff]
    simp
  · intro first second htests hnb
    dsimp only
    intro h1 h2
    rw [hres]
    have hb2 := runTest_blocking os (NewRunner (orDefault input.RepoPath ".") cfg) second
      (runTest os (NewRunner (orDefault input.RepoPath ".") cfg) first
        (record (Action.RunAll (NewRunner (orDefault input.RepoPath ".") cfg).repoPath)
          (Load os Y (orDefault input.ConfigPath ".mcp.yml") m).2)).2
    rw [hnb] at hb2
    have hrun : (RunAll os (NewRunner (orDefault input.RepoPath ".") cfg)
        (Load os Y (orDefault input.ConfigPath ".mcp.yml") m).2).1 =
        [(runTest os (NewRunner (orDefault input.RepoPath ".") cfg) first
          (record (Action.RunAll (NewRunner (orDefault input.RepoPath ".") cfg).repoPath)
            (Load os Y (orDefault input.ConfigPath ".mcp.yml") m).2)).1,
         (runTest os (NewRunner (orDefault input.RepoPath ".") cfg) second
          (runTest os (NewRunner (orDefault input.RepoPath ".") cfg) first
            (record (Action.RunAll (NewRunner (orDefault input.RepoPath ".") cfg).repoPath)
              (Load os Y (orDefault input.ConfigPath ".mcp.yml") m).2)).2).1] := by
      unfold RunAll
      show (runAllLoop os _ cfg.Tests _).1 = _
      rw [htests]
      rfl
    rw [hrun]
    simp [hasBlockingTestFailures, h1, h2, hb2]

/-- C5 (witness): the configuration `unit` (command `true`, blocking) and
`lint-opt` (command `false`, not blocking) yields two results, the first passed,
the second failed, and `success = true`. -/
theorem handleRunTests_success_witness :
    (handleRunTests exampleOS exampleYAML exampleParams "" freshSys).1 =
      .ok { success := true,
            results := [
              { Name := "unit", Success := true, Blocking := true, Duration := 1000,
                Output := "", Error := "" },
              { Name := "lint-opt", Success := false, Blocking := false, Duration := 1000,
                Output := "", Error := "exit status 1" }] } :=
  (handleRunTests_success exampleOS exampleYAML exampleParams "" freshSys
    { RepoPath := "", ConfigPath := "" } { Tests := [unitSpec, lintOptSpec] } rfl rfl).2
    unitSpec lintOptSpec rfl rfl rfl rfl

/-- C6: when the parameters decode, `handleRunChecks` returns a result whose
`results` are the list returned by `RunChecks` and whose `success` is the
conjunction of the success flags of that list: true for the empty list, false
exactly when some result has `Success = false`. The aggregation loop computes
this conjunction on every list of results. -/
theorem handleRunChecks_success {σ : Type} (os : OS σ) (P : ParamsLib) (params : RawMessage)
    (m : Sys σ) (input : RunChecksInput) (hparams : P.unmarshalRunChecks params = .ok input) :
    (∃ out, (handleRunChecks os P params m).1 = .ok out ∧
      out.results = (RunChecks os (NewAnalyzer (orDefault input.RepoPath ".")) input.Files m).1 ∧
      out.success = (out.results.all fun r => r.Success) ∧
      (out.success = false ↔ ∃ r ∈ out.results, r.Success = false)) ∧
    (∀ results : List CheckResult, (!hasCheckErrors results) = results.all fun r => r.Success) := by
  refine ⟨⟨RunChecksOutput.mk
      (!hasCheckErrors (RunChecks os (NewAnalyzer (orDefault input.RepoPath ".")) input.Files m).1)
      (RunChecks os (NewAnalyzer (orDefault input.RepoPath ".")) input.Files m).1,
    ?_, rfl, ?_, ?_⟩, hasCheckErrors_eq_all⟩
  · unfold handleRunChecks
    rw [hparams]
  · exact hasCheckErrors_eq_all _
  · dsimp only
    rw [← hasCheckErrors_iff]
    simp

/-- C6 (witness): no files, hence no results and `success = true`. -/
theorem handleRunChecks_success_witness :
    (handleRunChecks exampleOS exampleParams "" freshSys).1 = .ok { success := true, results := [] } ∧
    ∃ out, (handleRunChecks exampleOS exampleParams "" freshSys).1 = .ok out ∧
      out.results = (RunChecks exampleOS (NewAnalyzer (orDefault "" ".")) [] freshSys).1 ∧
      out.success = (out.results.all fun r => r.Success) ∧
      (out.success = false ↔ ∃ r ∈ out.results, r.Success = false) :=
  ⟨rfl, (handleRunChecks_success exampleOS exampleParams "" freshSys
    { RepoPath := "", Files := [] } rfl).1⟩

/-- C7: when the parameters decode and the git collaborator returns an empty
list of unpushed commits without error, `handleValidatePush` returns the result
with `success = true` and the message `No unpushed commits to validate` (and no
other key), and the only action it performed is the call of the git
collaborator: no entry into `RunChecks`, `Load` or `RunAll`, and no command
handed to the executor. -/
theorem handleValidatePush_no_commits {σ : Type} (os : OS σ) (Y : YAMLLib) (P : ParamsLib)
    (G : GitLib σ) (params : RawMessage) (m : Sys σ) (input : ValidatePushInput)
    (hparams : P.unmarshalValidatePush params = .ok input)
    (hgit : (G.GetUnpushedCommits (orDefault input.RepoPath ".") (orDefault input.Remote "origin")
      input.Branch m.world).1 = .ok []) :
    (handleValidatePush os Y P G params m).1 =
      .ok { success := true, message := some "No unpushed commits to validate",
            commits := none, changed_files := none, checks := none, tests := none } ∧
    (handleValidatePush os Y P G params m).2.trace =
      m.trace ++ [Action.GetUnpushedCommits (orDefault input.RepoPath ".")
        (orDefault input.Remote "origin") input.Branch] ∧
    (handleValidatePush os Y P G params m).2.world =
      (G.GetUnpushedCommits (orDefault input.RepoPath ".") (orDefault input.Remote "origin")
        input.Branch m.world).2 := by
  unfold handleValidatePush
  rw [hparams]
  dsimp only [GetUnpushedCommits]
  rw [hgit]
  exact ⟨rfl, rfl, rfl⟩

/-- C7 (witness): a git collaborator that reports no commit. -/
theorem handleValidatePush_no_commits_witness :
    (handleValidatePush exampleOS exampleYAML exampleParams noCommitGit "" freshSys).1 =
      .ok { success := true, message := some "No unpushed commits to validate",
            commits := none, changed_files := none, checks := none, tests := none } ∧
    (handleValidatePush exampleOS exampleYAML exampleParams noCommitGit "" freshSys).2.trace =
      [Action.GetUnpushedCommits "." "origin" ""] :=
  ⟨(handleValidatePush_no_commits exampleOS exampleYAML exampleParams noCommitGit "" freshSys
      { RepoPath := "", Remote := "", Branch := "", ConfigPath := "" } rfl rfl).1,
   (handleValidatePush_no_commits exampleOS exampleYAML exampleParams noCommitGit "" freshSys
      { RepoPath := "", Remote := "", Branch := "", ConfigPath := "" } rfl rfl).2.1⟩

/-! ## Test runner: claims -/

/-- C8: for every operating system, runner and state, `RunAll` returns exactly
one result per configured spec, and the result at every index has the name and
the blocking flag of the spec at that index; this holds whatever the executed
commands do, so no failure drops or reorders later results. -/
theorem RunAll_one_result_per_spec {σ : Type} (os : OS σ) (r : Runner) (m : Sys σ) :
    (RunAll os r m).1.length = r.config.Tests.length ∧
    (RunAll os r m).1.map (fun t => (t.Name, t.Blocking)) =
      r.config.Tests.map (fun t => (t.Name, t.Blocking)) ∧
    ∀ i : Nat, i < r.config.Tests.length →
      ∃ res spec, (RunAll os r m).1[i]? = some res ∧ r.config.Tests[i]? = some spec ∧
        res.Name = spec.Name ∧ res.Blocking = spec.Blocking := by
  have hlen : (RunAll os r m).1.length = r.config.Tests.length := runAllLoop_length os r _ _
  have hlab : (RunAll os r m).1.map (fun t => (t.Name, t.Blocking)) =
      r.config.Tests.map (fun t => (t.Name, t.Blocking)) := runAllLoop_labels os r _ _
  refine ⟨hlen, hlab, ?_⟩
  intro i hi
  have hi2 : i < (RunAll os r m).1.length := by rw [hlen]; exact hi
  refine ⟨(RunAll os r m).1[i], r.config.Tests[i], List.getElem?_eq_getElem hi2,
    List.getElem?_eq_getElem hi, ?_⟩
  have h := congrArg (fun l => l[i]?) hlab
  simp only [List.getElem?_map, List.getElem?_eq_getElem hi2, List.getElem?_eq_getElem hi,
    Option.map_some', Option.some.injEq, Prod.mk.injEq] at h
  exact h

/-- C9: for every spec whose command string is empty or consists only of white
space, whatever its timeout, `runTest` returns the result with the name and
blocking flag of the spec, `Success = false`, duration 0, empty output and the
error text `empty command`, and it returns the state it was given: nothing is
handed to the executor and the world is untouched. -/
theorem runTest_empty_command {σ : Type} (os : OS σ) (r : Runner) (tc : TestConfig) (m : Sys σ)
    (hblank : ∀ c ∈ tc.Command.data, isSpace c = true) :
    runTest os r tc m =
      ({ Name := tc.Name, Success := false, Blocking := tc.Blocking, Duration := 0,
         Output := "", Error := "empty command" }, m) ∧
    (runTest os r tc m).2.trace = m.trace ∧
    (runTest os r tc m).1.Error ≠ "" := by
  have h : runTest os r tc m =
      ({ Name := tc.Name, Success := false, Blocking := tc.Blocking, Duration := 0,
         Output := "", Error := "empty command" }, m) := by
    unfold runTest
    dsimp only
    have hf : Fields tc.Command = [] := fieldsAux_all_space _ hblank
    rw [hf]
  refine ⟨h, ?_, ?_⟩
  · rw [h]
  · rw [h]
    show "empty command" ≠ ""
    decide

/-- C9 (witness): a command of three blanks, and the empty command, on an
operating system whose every command would fail. -/
theorem runTest_empty_command_witness :
    (∀ c ∈ blankSpec.Command.data, isSpace c = true) ∧
    runTest failingOS (NewRunner "." { Tests := [blankSpec] }) blankSpec
        { world := (), trace := [] } =
      ({ Name := "unit", Success := false, Blocking := true, Duration := 0,
         Output := "", Error := "empty command" }, { world := (), trace := [] }) :=
  ⟨by decide,
   (runTest_empty_command failingOS (NewRunner "." { Tests := [blankSpec] }) blankSpec
      { world := (), trace := [] } (by decide)).1⟩

/-! ## Check runner with `gofmt` missing -/

/-- C10 (the code at the failing input): with `go` on the path and `gofmt`
missing, `RunChecks` on `main.go` hands `gofmt -l main.go` to the executor
without looking `gofmt` up and returns a `gofmt` result with `Success = false`,
so `run_checks` reports `success = false`. -/
theorem RunChecks_gofmt_missing_fails :
    commandExists gofmtMissingOS "gofmt" freshSys = false ∧
    commandExists gofmtMissingOS "go" freshSys = true ∧
    (RunChecks gofmtMissingOS (NewAnalyzer ".") ["main.go"] freshSys).1 =
      [{ Tool := "gofmt", File := "", Line := 0, Column := 0, Severity := "error",
         Message := "Go formatting issues found", Success := false, Output := "", Errors := [] },
       { Tool := "go vet", File := "", Line := 0, Column := 0, Severity := "info",
         Message := "No issues found by go vet", Success := true, Output := "", Errors := [] }] ∧
    (handleRunChecks gofmtMissingOS mainGoParams "" freshSys).1 =
      .ok { success := false,
            results := [
              { Tool := "gofmt", File := "", Line := 0, Column := 0, Severity := "error",
                Message := "Go formatting issues found", Success := false, Output := "",
                Errors := [] },
              { Tool := "go vet", File := "", Line := 0, Column := 0, Severity := "info",
                Message := "No issues found by go vet", Success := true, Output := "",
                Errors := [] }] } := by
  refine ⟨rfl, ?_, ?_, ?_⟩
  · decide
  · decide
  · rfl

/-! ## Read loop and framing of the dispatcher -/

theorem Conn.after_blank {σ : Type} (c : Conn σ) : c.after (Conn.blank c.world) = c := by
  cases c; simp [Conn.after, Conn.blank]

theorem Conn.after_assoc {σ : Type} (c d e : Conn σ) :
    (c.after d).after e = c.after (d.after e) := by
  simp [Conn.after, List.append_assoc]

theorem Framed.comp {σ : Type} {f g : Conn σ → Conn σ} (hf : Framed f) (hg : Framed g) :
    Framed (fun c => f (g c)) := by
  intro c
  show f (g c) = c.after (f (g (Conn.blank c.world)))
  have h1 : g c = c.after (g (Conn.blank c.world)) := hg c
  have h2 : (g c).world = (g (Conn.blank c.world)).world := by rw [h1]; rfl
  rw [hf (g c), h2, hf (g (Conn.blank c.world))]
  conv => lhs; rw [h1]
  rw [Conn.after_assoc]

theorem Framed.id {σ : Type} : Framed (fun c : Conn σ => c) := by
  intro c
  exact (Conn.after_blank c).symm

theorem Framed.logPrintf {σ : Type} (line : String) : Framed (logPrintf line : Conn σ → Conn σ) := by
  intro c
  simp [Conn.after, Conn.blank, GitGuardian.logPrintf]

theorem Framed.sendResponse {σ : Type} (id : Option JSONValue) (result : JSON) :
    Framed (sendResponse id result : Conn σ → Conn σ) := by
  intro c
  simp [Conn.after, Conn.blank, GitGuardian.sendResponse, writeResponse]

theorem Framed.sendError {σ : Type} (id : Option JSONValue) (code : Int) (message : String) :
    Framed (sendError id code message : Conn σ → Conn σ) := by
  intro c
  simp [Conn.after, Conn.blank, GitGuardian.sendError, writeResponse]

theorem Framed.handleToolCall {σ ρ : Type} (J : JSONLib ρ) (s : Server σ ρ) (req : Request) :
    Framed (handleToolCall J s req) := by
  intro c
  unfold GitGuardian.handleToolCall
  split
  · simp [Conn.after, Conn.blank, GitGuardian.sendError, writeResponse]
  · dsimp only
    split
    · simp [Conn.after, Conn.blank, GitGuardian.sendError, writeResponse, GitGuardian.logPrintf]
    · simp only [GitGuardian.logPrintf, Conn.blank]
      split <;> simp [Conn.after, GitGuardian.sendError, GitGuardian.sendResponse, writeResponse,
        GitGuardian.logPrintf]

theorem Framed.handleRequest {σ ρ : Type} (J : JSONLib ρ) (s : Server σ ρ) (req : Request) :
    Framed (handleRequest J s req) := by
  have hg : Framed (fun c : Conn σ =>
      if req.Method ≠ "resources/list" ∧ req.Method ≠ "prompts/list" ∧ req.Method ≠ "ping"
      then GitGuardian.logPrintf ("Handling method: " ++ req.Method) c else c) := by
    split
    · exact Framed.logPrintf _
    · exact Framed.id
  intro c
  unfold GitGuardian.handleRequest
  dsimp only
  split
  · exact Framed.comp (Framed.comp (Framed.sendResponse _ _) (Framed.logPrintf _)) hg c
  · exact hg c
  · exact hg c
  · exact Framed.comp (Framed.sendResponse _ _) hg c
  · exact Framed.comp (Framed.handleToolCall J s req) hg c
  · exact Framed.comp (Framed.sendResponse _ _) hg c
  · exact Framed.comp (Framed.sendResponse _ _) hg c
  · exact Framed.comp (Framed.sendResponse _ _) hg c
  · split
    · exact Framed.comp (Framed.logPrintf _) hg c
    · exact Framed.comp (Framed.comp (Framed.sendError _ _ _) (Framed.logPrintf _)) hg c

/-- The read loop acts on a connection only through its world and only by
appending. -/
theorem startLoop_framed {σ ρ : Type} (D : RequestLib) (J : JSONLib ρ) (s : Server σ ρ)
    (data cur : List Char) (err : Option String) (c : Conn σ) :
    startLoop D J s data cur err c =
      ((startLoop D J s data cur err (Conn.blank c.world)).1,
        c.after (startLoop D J s data cur err (Conn.blank c.world)).2) := by
  induction data generalizing cur c with
  | nil =>
    unfold startLoop
    cases err <;> simp [Conn.after_blank]
  | cons ch rest ih =>
    have step : ∀ (h : Conn σ → Conn σ), Framed h → ∀ cur1 : List Char,
        startLoop D J s rest cur1 err (h c) =
          ((startLoop D J s rest cur1 err (h (Conn.blank c.world))).1,
            c.after (startLoop D J s rest cur1 err (h (Conn.blank c.world))).2) := by
      intro h hh cur1
      have hw : (h c).world = (h (Conn.blank c.world)).world := by rw [hh c]; rfl
      rw [ih cur1 (h c), ih cur1 (h (Conn.blank c.world)), hw]
      dsimp only
      rw [← Conn.after_assoc, ← hh c]
    unfold startLoop
    split
    · split
      · exact step _ (Framed.sendError _ _ _) []
      · exact step _ (Framed.handleRequest J s _) []
    · exact step _ Framed.id _

/-- Reading a complete line: the loop scans to the newline, decodes the line and
handles it, then goes on with the bytes after the newline. -/
theorem startLoop_line {σ ρ : Type} (D : RequestLib) (J : JSONLib ρ) (s : Server σ ρ)
    (line rest cur : List Char) (err : Option String) (c : Conn σ) (hline : '\n' ∉ line) :
    startLoop D J s (line ++ '\n' :: rest) cur err c =
      match D.unmarshalRequest (String.mk (cur ++ line ++ ['\n'])) with
      | .error e =>
        startLoop D J s rest [] err (sendError none (-32700) ("Parse error: " ++ e) c)
      | .ok req => startLoop D J s rest [] err (handleRequest J s req c) := by
  induction line generalizing cur with
  | nil =>
    simp only [List.nil_append, List.append_nil]
    rw [startLoop]
    simp
  | cons ch tail ih =>
    have hch : ch ≠ '\n' := fun h => hline (by simp [h])
    have htail : '\n' ∉ tail := fun h => hline (List.mem_cons_of_mem ch h)
    rw [List.cons_append, startLoop, if_neg hch, ih (cur ++ [ch]) htail]
    simp [List.append_assoc]

/-- Reading complete lines first: the loop on `before ++ rest`, where `before`
ends in a newline, goes on with `rest` from the state reached at the end of
`before`. -/
theorem startLoop_append {σ ρ : Type} (D : RequestLib) (J : JSONLib ρ) (s : Server σ ρ)
    (before rest cur : List Char) (err : Option String) (c : Conn σ)
    (hbefore : before.getLast? = some '\n') :
    startLoop D J s (before ++ rest) cur err c =
      startLoop D J s rest [] err (startLoop D J s before cur none c).2 := by
  induction before generalizing cur c with
  | nil => simp at hbefore
  | cons ch tail ih =>
    cases tail with
    | nil =>
      have hch : ch = '\n' := by simpa using hbefore
      subst hch
      simp only [List.cons_append, List.nil_append]
      rw [startLoop, startLoop]
      simp only [if_true]
      split <;> rfl
    | cons ch2 tail2 =>
      have hlast : (ch2 :: tail2).getLast? = some '\n' := by
        rw [List.getLast?_cons_cons] at hbefore
        exact hbefore
      rw [List.cons_append, startLoop, startLoop]
      split
      · split
        · exact ih [] _ hlast
        · exact ih [] _ hlast
      · exact ih _ _ hlast

/-- C11: when a line of the input does not decode as a request, `Start`
answers it with exactly one response, the error response with a null id and
code -32700, invokes no handler and leaves the world as it is, and goes on with
the bytes after the line: the returned error and everything written, logged and
invoked for the later lines are what they are for the same stream without the
bad line. Here `before` is any sequence of complete lines read first. -/
theorem Start_parse_error {σ ρ : Type} (D : RequestLib) (J : JSONLib ρ) (s : Server σ ρ)
    (before bad rest : List Char) (err : Option String) (c : Conn σ) (e : String)
    (hbefore : before = [] ∨ before.getLast? = some '\n')
    (hbad : '\n' ∉ bad)
    (hparse : D.unmarshalRequest (String.mk (bad ++ ['\n'])) = .error e) :
    let reached := (Start D J s { data := before, err := none } c).2
    let answered := sendError none (-32700) ("Parse error: " ++ e) reached
    let later := startLoop D J s rest [] err (Conn.blank reached.world)
    answered.written =
      reached.written ++ [{ JSONRPC := "2.0", ID := none, Result := none,
                            Error := some { Code := -32700, Message := "Parse error: " ++ e } }] ∧
    answered.invoked = reached.invoked ∧ answered.world = reached.world ∧
    answered.logged = reached.logged ∧
    Start D J s { data := before ++ bad ++ '\n' :: rest, err := err } c =
      (later.1, answered.after later.2) ∧
    Start D J s { data := before ++ rest, err := err } c = (later.1, reached.after later.2) := by
  intro reached answered later
  refine ⟨rfl, rfl, rfl, rfl, ?_, ?_⟩
  · have hgo : Start D J s { data := before ++ bad ++ '\n' :: rest, err := err } c =
        startLoop D J s rest [] err answered := by
      unfold Start
      dsimp only
      rcases hbefore with hnil | hlast
      · subst hnil
        rw [List.nil_append, startLoop_line D J s bad rest [] err _ hbad]
        simp only [List.nil_append, hparse]
        rfl
      · rw [List.append_assoc, startLoop_append D J s before _ [] err _ hlast,
          startLoop_line D J s bad rest [] err _ hbad]
        simp only [List.nil_append, hparse]
        rfl
    rw [hgo, startLoop_framed]
    rfl
  · have hgo : Start D J s { data := before ++ rest, err := err } c =
        startLoop D J s rest [] err reached := by
      unfold Start
      dsimp only
      rcases hbefore with hnil | hlast
      · subst hnil
        rfl
      · rw [startLoop_append D J s before _ [] err _ hlast]
        rfl
    rw [hgo, startLoop_framed]

/-- C11 (witness): the stream `oops`, newline, `ping`, newline gets the parse
error response and then the answer to the ping. -/
theorem Start_parse_error_witness :
    Start pingOnlyLib noParamsLib (NewServer Unit Unit)
        { data := "oops\nping\n".data, err := none } freshConn =
      (none,
       { world := (),
         written := [
           { JSONRPC := "2.0", ID := none, Result := none,
             Error := some { Code := -32700, Message := "Parse error: invalid character" } },
           { JSONRPC := "2.0", ID := some { text := "1" }, Result := some (.obj []),
             Error := none }],
         logged := ["MCP server starting..."],
         invoked := [] }) :=
  (Start_parse_error pingOnlyLib noParamsLib (NewServer Unit Unit) [] "oops".data "ping\n".data
    none freshConn "invalid character" (Or.inl rfl) (by decide) rfl).2.2.2.2.1

/-! ## Dispatch of unknown methods and of tool calls -/

/-- C12: a request with a present, non-null id whose method is none of the
eight known ones gets exactly one response, the error response with code -32601
and the id of the request; no handler is invoked and the world is untouched. -/
theorem handleRequest_unknown_method {σ ρ : Type} (J : JSONLib ρ) (s : Server σ ρ) (req : Request)
    (c : Conn σ) (hid : req.ID ≠ none)
    (h1 : req.Method ≠ "initialize") (h2 : req.Method ≠ "initialized")
    (h3 : req.Method ≠ "notifications/initialized") (h4 : req.Method ≠ "tools/list")
    (h5 : req.Method ≠ "tools/call") (h6 : req.Method ≠ "resources/list")
    (h7 : req.Method ≠ "prompts/list") (h8 : req.Method ≠ "ping") :
    (handleRequest J s req c).written =
      c.written ++ [{ JSONRPC := "2.0", ID := req.ID, Result := none,
                      Error := some { Code := -32601,
                                      Message := "Method not found: " ++ req.Method } }] ∧
    (handleRequest J s req c).invoked = c.invoked ∧
    (handleRequest J s req c).world = c.world := by
  have hn : req.ID.isNone = false := by
    cases h : req.ID with
    | none => exact absurd h hid
    | some v => rfl
  unfold handleRequest
  dsimp only
  rw [if_pos ⟨h6, h7, h8⟩]
  split
  · exact absurd (by assumption) h1
  · exact absurd (by assumption) h2
  · exact absurd (by assumption) h3
  · exact absurd (by assumption) h4
  · exact absurd (by assumption) h5
  · exact absurd (by assumption) h6
  · exact absurd (by assumption) h7
  · exact absurd (by assumption) h8
  · rw [if_neg (by simp [hn])]
    exact ⟨rfl, rfl, rfl⟩

/-- C12 (witness): the method `shutdown` with id 1. -/
theorem handleRequest_unknown_method_witness :
    (handleRequest noParamsLib (NewServer Unit Unit)
        (Request.mk "2.0" (some { text := "1" }) "shutdown" "") freshConn).written =
      [{ JSONRPC := "2.0", ID := some { text := "1" }, Result := none,
         Error := some { Code := -32601, Message := "Method not found: shutdown" } }] :=
  (handleRequest_unknown_method noParamsLib (NewServer Unit Unit)
    (Request.mk "2.0" (some { text := "1" }) "shutdown" "") freshConn (by simp)
    (by decide) (by decide) (by decide) (by decide) (by decide) (by decide) (by decide)
    (by decide)).1

/-- C13 (amended): for a `tools/call` request whose decoded params name a
registered tool, the handler is invoked exactly once, with the raw arguments;
when it returns a result, exactly one response is written, a success response
whose result is a content list with the single element of type `text` whose
text is `toJSON` of the result: the indented serialisation when
`json.MarshalIndent` succeeds, the `%v` formatting of the result when it fails.
When the handler returns an error, exactly one response is written, the error
response with code -32603 and no result. -/
theorem handleToolCall_registered {σ ρ : Type} (J : JSONLib ρ) (s : Server σ ρ) (req : Request)
    (c : Conn σ) (params : ToolCallParams) (tool : Tool σ ρ)
    (hparams : J.unmarshalParams req.Params = .ok params)
    (hregistered : s.tools.lookup params.Name = some tool) :
    (handleToolCall J s req c).invoked = c.invoked ++ [(params.Name, params.Arguments)] ∧
    (handleToolCall J s req c).world = (tool.Handler params.Arguments c.world).2 ∧
    (∀ result, (tool.Handler params.Arguments c.world).1 = .ok result →
      (handleToolCall J s req c).written =
        c.written ++ [{ JSONRPC := "2.0", ID := req.ID,
                        Result := some (.obj [("content",
                          .arr [.obj [("type", .str "text"),
                                      ("text", .str (toJSON J result))]])]),
                        Error := none }] ∧
      (∀ data, J.marshalIndent result = .ok data → toJSON J result = data) ∧
      (∀ e, J.marshalIndent result = .error e → toJSON J result = J.sprint result)) ∧
    (∀ e, (tool.Handler params.Arguments c.world).1 = .error e →
      (handleToolCall J s req c).written =
        c.written ++ [{ JSONRPC := "2.0", ID := req.ID, Result := none,
                        Error := some { Code := -32603,
                                        Message := "Tool execution error: " ++ e } }]) ∧
    (req.Method = "tools/call" →
      handleRequest J s req c =
        handleToolCall J s req (logPrintf ("Handling method: " ++ req.Method) c)) := by
  refine ⟨?_, ?_, ?_, ?_, ?_⟩
  · unfold handleToolCall
    rw [hparams]
    dsimp only
    rw [hregistered]
    dsimp only
    split <;> rfl
  · unfold handleToolCall
    rw [hparams]
    dsimp only
    rw [hregistered]
    dsimp only
    split <;> rfl
  · intro result hok
    refine ⟨?_, ?_, ?_⟩
    · unfold handleToolCall
      rw [hparams]
      dsimp only
      rw [hregistered]
      dsimp only
      have hw : (logPrintf ("Executing tool: " ++ params.Name) c).world = c.world := rfl
      rw [hw, hok]
      rfl
    · intro data hd
      unfold toJSON
      rw [hd]
    · intro e he
      unfold toJSON
      rw [he]
  · intro e herr
    unfold handleToolCall
    rw [hparams]
    dsimp only
    rw [hregistered]
    dsimp only
    have hw : (logPrintf ("Executing tool: " ++ params.Name) c).world = c.world := rfl
    rw [hw, herr]
    rfl
  · intro hm
    unfold handleRequest
    rw [hm]
    rfl

/-- C13 (witness): the tool `measure` of the registry `nanServer`. -/
theorem handleToolCall_registered_witness :
    (handleToolCall nanLib nanServer (Request.mk "2.0" (some { text := "1" }) "tools/call" "p")
        (Conn.blank ())).invoked = [("measure", "[]")] :=
  (handleToolCall_registered nanLib nanServer
    (Request.mk "2.0" (some { text := "1" }) "tools/call" "p") (Conn.blank ())
    { Name := "measure", Arguments := "[]" }
    { Name := "measure", Description := "Measure something", Handler := fun _ w => (.ok "NaN", w) }
    rfl rfl).1

/-- C13 (counterexample): the handler of the registered tool `measure` returns
a result that `json.MarshalIndent` cannot serialise; the response is a success
response whose text is the `%v` formatting `NaN`, not an indented
serialisation, which does not exist. -/
theorem handleToolCall_text_not_serialisation :
    nanServer.tools.lookup "measure" =
      some { Name := "measure", Description := "Measure something",
             Handler := fun _ w => (.ok "NaN", w) } ∧
    (handleToolCall nanLib nanServer (Request.mk "2.0" (some { text := "1" }) "tools/call" "p")
        (Conn.blank ())).written =
      [{ JSONRPC := "2.0", ID := some { text := "1" },
         Result := some (.obj [("content",
           .arr [.obj [("type", .str "text"), ("text", .str "NaN")]])]),
         Error := none }] ∧
    ¬ ∃ data, nanLib.marshalIndent "NaN" = .ok data := by
  refine ⟨rfl, rfl, ?_⟩
  rintro ⟨data, h⟩
  simp [nanLib] at h

/-! ## Shape of the written responses -/

/-- The responses built by `sendResponse` and `sendError` have exactly one payload field. -/
theorem exactlyOne_built (id : Option JSONValue) (result : JSON) (code : Int) (message : String) :
    Response.exactlyOne { JSONRPC := "2.0", ID := id, Result := some result, Error := none } ∧
    Response.exactlyOne { JSONRPC := "2.0", ID := id, Result := none,
                          Error := some { Code := code, Message := message } } :=
  ⟨Or.inl ⟨rfl, rfl⟩, Or.inr ⟨rfl, rfl⟩⟩

/-- Every response that `handleToolCall` adds has exactly one payload field. -/
theorem handleToolCall_exactlyOne {σ ρ : Type} (J : JSONLib ρ) (s : Server σ ρ) (req : Request)
    (c : Conn σ) :
    ∃ new, (handleToolCall J s req c).written = c.written ++ new ∧
      ∀ r ∈ new, Response.exactlyOne r := by
  unfold handleToolCall
  split
  · exact ⟨[_], rfl, by simp [(exactlyOne_built _ (.obj []) _ _).2]⟩
  · dsimp only
    split
    · exact ⟨[_], rfl, by simp [(exactlyOne_built _ (.obj []) _ _).2]⟩
    · split
      · exact ⟨[_], rfl, by simp [(exactlyOne_built _ (.obj []) _ _).2]⟩
      · exact ⟨[_], rfl, by simp [(exactlyOne_built _ _ 0 "").1]⟩

/-- Every response that `handleRequest` adds has exactly one payload field. -/
theorem handleRequest_exactlyOne {σ ρ : Type} (J : JSONLib ρ) (s : Server σ ρ) (req : Request)
    (c : Conn σ) :
    ∃ new, (handleRequest J s req c).written = c.written ++ new ∧
      ∀ r ∈ new, Response.exactlyOne r := by
  have hlog := entryLog_written req c
  unfold handleRequest
  dsimp only
  generalize (if req.Method ≠ "resources/list" ∧ req.Method ≠ "prompts/list" ∧ req.Method ≠ "ping"
      then logPrintf ("Handling method: " ++ req.Method) c else c) = c0 at hlog ⊢
  rw [← hlog]
  split
  · exact ⟨[_], rfl, by simp [(exactlyOne_built _ _ 0 "").1]⟩
  · exact ⟨[], by simp, by simp⟩
  · exact ⟨[], by simp, by simp⟩
  · exact ⟨[_], rfl, by simp [(exactlyOne_built _ _ 0 "").1]⟩
  · exact handleToolCall_exactlyOne J s req c0
  · exact ⟨[_], rfl, by simp [(exactlyOne_built _ _ 0 "").1]⟩
  · exact ⟨[_], rfl, by simp [(exactlyOne_built _ _ 0 "").1]⟩
  · exact ⟨[_], rfl, by simp [(exactlyOne_built _ _ 0 "").1]⟩
  · split
    · exact ⟨[], by simp [logPrintf], by simp⟩
    · exact ⟨[_], rfl, by simp [(exactlyOne_built _ (.obj []) _ _).2]⟩

/-- Every response that the read loop adds has exactly one payload field. -/
theorem startLoop_exactlyOne {σ ρ : Type} (D : RequestLib) (J : JSONLib ρ) (s : Server σ ρ)
    (data cur : List Char) (err : Option String) (c : Conn σ) :
    ∃ new, (startLoop D J s data cur err c).2.written = c.written ++ new ∧
      ∀ r ∈ new, Response.exactlyOne r := by
  induction data generalizing cur c with
  | nil =>
    unfold startLoop
    cases err <;> exact ⟨[], by simp, by simp⟩
  | cons ch rest ih =>
    unfold startLoop
    split
    · split
      · rename_i e _
        obtain ⟨new, hw, hall⟩ := ih []
          (sendError none (-32700) ("Parse error: " ++ e) c)
        refine ⟨{ JSONRPC := "2.0", ID := none, Result := none,
                  Error := some { Code := -32700, Message := "Parse error: " ++ e } } :: new,
          by rw [hw]; simp [sendError, writeResponse], ?_⟩
        intro r hr
        rcases List.mem_cons.mp hr with h | h
        · rw [h]; exact (exactlyOne_built _ (.obj []) _ _).2
        · exact hall r h
      · rename_i req _
        obtain ⟨new1, hw1, hall1⟩ := handleRequest_exactlyOne J s req c
        obtain ⟨new2, hw2, hall2⟩ := ih [] (handleRequest J s req c)
        refine ⟨new1 ++ new2, by rw [hw2, hw1, List.append_assoc], ?_⟩
        intro r hr
        rcases List.mem_append.mp hr with h | h
        · exact hall1 r h
        · exact hall2 r h
    · exact ih _ c

/-- C14: every response that `Start`, `handleRequest` and `handleToolCall`
write has exactly one of its two payload fields set: what is written is what
was written before followed by new responses, each with a result and no error
or with an error and no result. -/
theorem written_responses_exactlyOne {σ ρ : Type} (D : RequestLib) (J : JSONLib ρ)
    (s : Server σ ρ) (r : Reader) (req : Request) (c : Conn σ) :
    (∃ new, (Start D J s r c).2.written = c.written ++ new ∧
      ∀ resp ∈ new, Response.exactlyOne resp) ∧
    (∃ new, (handleRequest J s req c).written = c.written ++ new ∧
      ∀ resp ∈ new, Response.exactlyOne resp) ∧
    (∃ new, (handleToolCall J s req c).written = c.written ++ new ∧
      ∀ resp ∈ new, Response.exactlyOne resp) :=
  ⟨startLoop_exactlyOne D J s r.data [] r.err (logPrintf "MCP server starting..." c),
   handleRequest_exactlyOne J s req c, handleToolCall_exactlyOne J s req c⟩

/-! ## Validation without a configuration, and timeouts -/

/-- The state after `Load` is the state before it with the entry into `Load` recorded. -/
theorem Load_state {σ : Type} (os : OS σ) (Y : YAMLLib) (path : String) (m : Sys σ) :
    (Load os Y path m).2 = record (Action.Load path) m := by
  unfold Load
  dsimp only
  split
  · rfl
  · split <;> rfl

/-- C15: when there is at least one unpushed commit and `Load` returns an
error, `handleValidatePush` returns no error but the verdict whose `checks` are
the full list returned by `RunChecks`, whose `tests` are empty and whose
`success` is the conjunction of the success flags of the checks; after
`RunChecks` the only action is the entry into `Load`, so `RunAll` is never
entered and no test command is executed. -/
theorem handleValidatePush_config_error {σ : Type} (os : OS σ) (Y : YAMLLib) (P : ParamsLib)
    (G : GitLib σ) (params : RawMessage) (m : Sys σ) (input : ValidatePushInput)
    (commits : List Commit) (loadErr : String)
    (hparams : P.unmarshalValidatePush params = .ok input)
    (hgit : (G.GetUnpushedCommits (orDefault input.RepoPath ".") (orDefault input.Remote "origin")
      input.Branch m.world).1 = .ok commits)
    (hsome : commits ≠ [])
    (hload : (Load os Y (orDefault input.ConfigPath ".mcp.yml")
      (RunChecks os (NewAnalyzer (orDefault input.RepoPath "."))
        (G.GetChangedFiles (orDefault input.RepoPath ".") commits)
        (GetUnpushedCommits G (orDefault input.RepoPath ".") (orDefault input.Remote "origin")
          input.Branch m).2).2).1 = .error loadErr) :
    let repoPath := orDefault input.RepoPath "."
    let got := GetUnpushedCommits G repoPath (orDefault input.Remote "origin") input.Branch m
    let changedFiles := G.GetChangedFiles repoPath commits
    let checked := RunChecks os (NewAnalyzer repoPath) changedFiles got.2
    (handleValidatePush os Y P G params m).1 =
      .ok { success := checked.1.all fun r => r.Success,
            message := none, commits := some commits.length,
            changed_files := some changedFiles.length,
            checks := some checked.1, tests := some [] } ∧
    (handleValidatePush os Y P G params m).2.trace =
      checked.2.trace ++ [Action.Load (orDefault input.ConfigPath ".mcp.yml")] ∧
    (handleValidatePush os Y P G params m).2.world = checked.2.world := by
  have hlen : ¬ commits.length = 0 := fun h => hsome (List.length_eq_zero.mp h)
  dsimp only
  unfold handleValidatePush
  rw [hparams]
  dsimp only
  have hgit2 : (GetUnpushedCommits G (orDefault input.RepoPath ".")
      (orDefault input.Remote "origin") input.Branch m).1 = .ok commits := hgit
  rw [hgit2]
  dsimp only
  rw [if_neg hlen, hload]
  dsimp only
  rw [Load_state]
  refine ⟨?_, rfl, rfl⟩
  rw [← hasCheckErrors_eq_all]
  simp

/-- C15 (witness): one commit and a configuration file that cannot be read. -/
theorem handleValidatePush_config_error_witness :
    (handleValidatePush failingOS exampleYAML exampleParams oneCommitGit "" freshSys).1 =
      .ok { success := true, message := none, commits := some 1, changed_files := some 1,
            checks := some [], tests := some [] } ∧
    (handleValidatePush failingOS exampleYAML exampleParams oneCommitGit "" freshSys).2.trace =
      [Action.GetUnpushedCommits "." "origin" "", Action.RunChecks "." ["main.go"],
       Action.Load ".mcp.yml"] :=
  ⟨(handleValidatePush_config_error failingOS exampleYAML exampleParams oneCommitGit "" freshSys
      { RepoPath := "", Remote := "", Branch := "", ConfigPath := "" } [exampleCommit]
      "failed to read config file: no such file or directory" rfl rfl (by decide) rfl).1,
   (handleValidatePush_config_error failingOS exampleYAML exampleParams oneCommitGit "" freshSys
      { RepoPath := "", Remote := "", Branch := "", ConfigPath := "" } [exampleCommit]
      "failed to read config file: no such file or directory" rfl rfl (by decide) rfl).2.1⟩

/-- C16 (amended): for a spec whose command has at least one field and whose
timeout `N` satisfies `-9223372036 ≤ N ≤ 9223372036`, `runTest` hands the
command to the executor once, with the deadline `N` seconds (`N * 10^9`
nanoseconds). When the executor reports an error and the context deadline has
expired, the result has `Success = false` and the error text
`test timed out after N seconds`; when the executor reports an error and the
deadline has not expired, the result has `Success = false` and the error text
of the executor. The text `exit status k` of a non-zero exit is never the
timeout text. -/
theorem runTest_timeout_or_failure {σ : Type} (os : OS σ) (r : Runner) (tc : TestConfig) (m : Sys σ)
    (name : String) (args : List String) (hcmd : Fields tc.Command = name :: args)
    (hlow : -9223372036 ≤ tc.Timeout) (hhigh : tc.Timeout ≤ 9223372036) :
    let cmd : Cmd :=
      { dir := r.repoPath, argv := name :: args, timeout := some (tc.Timeout * 1000000000) }
    let out := (os.exec cmd m.world).1
    (runTest os r tc m).2.trace = m.trace ++ [Action.exec cmd] ∧
    (∀ e, out.err = some e → out.deadlineExceeded = true →
      (runTest os r tc m).1.Success = false ∧
      (runTest os r tc m).1.Error =
        "test timed out after " ++ toString tc.Timeout ++ " seconds") ∧
    (∀ e, out.err = some e → out.deadlineExceeded = false →
      (runTest os r tc m).1.Success = false ∧ (runTest os r tc m).1.Error = e) ∧
    (∀ k : Nat, "exit status " ++ toString k ≠
      "test timed out after " ++ toString tc.Timeout ++ " seconds") := by
  have hfits : wrapInt64 (tc.Timeout * 1000000000) = tc.Timeout * 1000000000 := by
    unfold wrapInt64
    omega
  dsimp only
  refine ⟨?_, ?_, ?_, ?_⟩
  · unfold runTest
    dsimp only
    rw [hcmd, hfits]
    dsimp only [spawn]
    split
    · rfl
    · split <;> rfl
  · intro e he hd
    unfold runTest
    dsimp only
    rw [hcmd, hfits]
    dsimp only [spawn]
    rw [he]
    dsimp only
    rw [if_pos hd]
    exact ⟨rfl, rfl⟩
  · intro e he hd
    unfold runTest
    dsimp only
    rw [hcmd, hfits]
    dsimp only [spawn]
    rw [he]
    dsimp only
    rw [if_neg (by simp [hd])]
    exact ⟨rfl, rfl⟩
  · intro k h
    have h2 := congrArg (fun s : String => s.data.head?) h
    simp [String.data_append] at h2

/-- C16 (witness): `sleep 5` under a deadline of one second, killed at the
deadline. -/
theorem runTest_timeout_or_failure_witness :
    (runTest slowOS (NewRunner "." { Tests := [sleepSpec] }) sleepSpec freshSys).1 =
      { Name := "slow", Success := false, Blocking := true, Duration := 1000000000,
        Output := "", Error := "test timed out after 1 seconds" } ∧
    (runTest slowOS (NewRunner "." { Tests := [sleepSpec] }) sleepSpec freshSys).2.trace =
      [Action.exec { dir := ".", argv := ["sleep", "5"], timeout := some 1000000000 }] ∧
    (runTest slowOS (NewRunner "." { Tests := [sleepSpec] }) sleepSpec freshSys).1.Error =
      "test timed out after " ++ toString sleepSpec.Timeout ++ " seconds" :=
  ⟨by decide,
   (runTest_timeout_or_failure slowOS (NewRunner "." { Tests := [sleepSpec] }) sleepSpec freshSys
      "sleep" ["5"] (by decide) (by decide) (by decide)).1,
   ((runTest_timeout_or_failure slowOS (NewRunner "." { Tests := [sleepSpec] }) sleepSpec freshSys
      "sleep" ["5"] (by decide) (by decide) (by decide)).2.1 "signal: killed" rfl rfl).2⟩

/-- C16 (counterexample): the timeout `N = 18446744074` seconds. The product
`N * 10^9` does not fit `int64` and wraps to 290448384 nanoseconds, so the
command `sleep 5` is killed after 0.29 seconds, long before `N` seconds have
passed, and the result carries the timeout text `test timed out after
18446744074 seconds` instead of the executor's own error text. -/
theorem runTest_deadline_wraps :
    (runTest deadlineOS (NewRunner "." { Tests := [wrappingSpec] }) wrappingSpec freshSys).2.trace =
      [Action.exec { dir := ".", argv := ["sleep", "5"], timeout := some 290448384 }] ∧
    (290448384 : Int) ≠ wrappingSpec.Timeout * 1000000000 ∧
    (runTest deadlineOS (NewRunner "." { Tests := [wrappingSpec] }) wrappingSpec freshSys).1 =
      { Name := "slow", Success := false, Blocking := true, Duration := 290448384,
        Output := "", Error := "test timed out after 18446744074 seconds" } ∧
    ((deadlineOS.exec { dir := ".", argv := ["sleep", "5"], timeout := some 290448384 } ()).1.err =
      some "signal: killed") ∧
    ((runTest deadlineOS (NewRunner "." { Tests := [wrappingSpec] }) wrappingSpec
        freshSys).1.Duration : Int) < wrappingSpec.Timeout * 1000000000 ∧
    (runTest deadlineOS (NewRunner "." { Tests := [wrappingSpec] }) wrappingSpec freshSys).1.Error ≠
      "signal: killed" := by
  refine ⟨by decide, by decide, by decide, rfl, by decide, by decide⟩

/-! ## Configuration loader -/

/-- C17: when the file is read and parsed, `Load` returns the parsed tests in
the same number and order, each with its name, command and blocking flag
unchanged and with its timeout replaced by 300 when it is zero (unset or zero in
the file) and kept when it is not zero. -/
theorem Load_defaults {σ : Type} (os : OS σ) (Y : YAMLLib) (path : String) (m : Sys σ)
    (data : String) (parsed : Config)
    (hread : os.readFile path m.world = .ok data)
    (hparse : Y.unmarshal data = .ok parsed) :
    ∃ cfg, (Load os Y path m).1 = .ok cfg ∧
      cfg.Tests.length = parsed.Tests.length ∧
      ∀ (i : Nat) (t : TestConfig), parsed.Tests[i]? = some t →
        ∃ t2, cfg.Tests[i]? = some t2 ∧
          t2.Name = t.Name ∧ t2.Command = t.Command ∧ t2.Blocking = t.Blocking ∧
          (t.Timeout = 0 → t2.Timeout = 300) ∧ (t.Timeout ≠ 0 → t2.Timeout = t.Timeout) := by
  refine ⟨{ Tests := parsed.Tests.map fun t =>
      if t.Timeout = 0 then { t with Timeout := 300 } else t }, ?_, ?_, ?_⟩
  · unfold Load
    dsimp only
    rw [hread]
    dsimp only
    rw [hparse]
  · simp
  · intro i t ht
    refine ⟨if t.Timeout = 0 then { t with Timeout := 300 } else t, ?_, ?_⟩
    · simp [List.getElem?_map, ht]
    · by_cases h0 : t.Timeout = 0
      · simp [h0]
      · simp [h0]

/-- C17 (witness): `unit` with no timeout set and `lint-opt` with timeout 5. -/
theorem Load_defaults_witness :
    (Load exampleOS defaultingYAML ".mcp.yml" freshSys).1 =
      .ok { Tests := [{ Name := "unit", Command := "true", Blocking := true, Timeout := 300 },
                      { Name := "lint-opt", Command := "false", Blocking := false,
                        Timeout := 5 }] } ∧
    ∃ cfg, (Load exampleOS defaultingYAML ".mcp.yml" freshSys).1 = .ok cfg ∧
      cfg.Tests.length = 2 :=
  ⟨rfl, by
    obtain ⟨cfg, h1, h2, _⟩ := Load_defaults exampleOS defaultingYAML ".mcp.yml" freshSys
      "tests: [unit, lint-opt]" { Tests := [{ unitSpec with Timeout := 0 }, lintOptSpec] } rfl rfl
    exact ⟨cfg, h1, h2⟩⟩

/-- C18 (the code at the failing input): a configuration whose only test has an
empty name, an empty command and the timeout -5 breaks every rule of
`Validate`, which rejects it, yet `Load` returns it without error and
unchanged: `Load` does not call `Validate`. -/
theorem Load_returns_invalid_config :
    (Load exampleOS invalidYAML ".mcp.yml" freshSys).1 =
      .ok { Tests := [{ Name := "", Command := "", Blocking := true, Timeout := -5 }] } ∧
    Validate { Tests := [{ Name := "", Command := "", Blocking := true, Timeout := -5 }] } =
      some "test name cannot be empty" ∧
    Validate { Tests := [{ Name := "t", Command := "", Blocking := true, Timeout := -5 }] } =
      some "test command cannot be empty for test 't'" ∧
    Validate { Tests := [{ Name := "t", Command := "true", Blocking := true, Timeout := -5 }] } =
      some "test timeout must be positive for test 't'" := by
  refine ⟨rfl, ?_, ?_, ?_⟩ <;> decide

/-! ## Check runner: order of the providers -/

/-- C19 (counterexample): with `golangci-lint` on the path and `go` not, a Go
file yields no result at all, while the contract's sequence of available
providers is `golangci-lint`. -/
theorem RunChecks_skips_available_linter :
    ((RunChecks lintOnlyOS (NewAnalyzer ".") ["main.go"] freshSys).1.map fun r => r.Tool) = [] ∧
    specToolNames lintOnlyOS () (groupFilesByType lintOnlyOS ["main.go"] freshSys) =
      ["golangci-lint"] ∧
    ((RunChecks lintOnlyOS (NewAnalyzer ".") ["main.go"] freshSys).1.map fun r => r.Tool) ≠
      specToolNames lintOnlyOS () (groupFilesByType lintOnlyOS ["main.go"] freshSys) := by
  refine ⟨by decide, by decide, by decide⟩

/-- The state after a command does not depend on the command's outcome. -/
theorem spawn_state {σ : Type} (os1 os2 : OS σ)
    (hexec : ∀ cmd w, (os1.exec cmd w).2 = (os2.exec cmd w).2) (cmd : Cmd) (m : Sys σ) :
    (spawn os1 cmd m).2 = (spawn os2 cmd m).2 := by
  simp [spawn, hexec]

/-- Tool name of the result of a provider run through `CombinedOutput`. -/
theorem runCombined_tool {σ : Type} (os : OS σ) (cmd : Cmd) (tool file fail ok : String)
    (m : Sys σ) : (runCombined os cmd tool file fail ok m).1.Tool = tool := by
  unfold runCombined
  dsimp only
  split <;> rfl

/-- State after a provider run through `CombinedOutput`. -/
theorem runCombined_state {σ : Type} (os : OS σ) (cmd : Cmd) (tool file fail ok : String)
    (m : Sys σ) :
    (runCombined os cmd tool file fail ok m).2 =
      { world := (os.exec cmd m.world).2, trace := m.trace ++ [Action.exec cmd] } := by
  unfold runCombined
  dsimp only
  split <;> rfl

/-- Tool name of the result of `runGoFmt`. -/
theorem runGoFmt_tool {σ : Type} (os : OS σ) (a : Analyzer) (files : List String) (m : Sys σ) :
    (runGoFmt os a files m).1.Tool = "gofmt" := by
  unfold runGoFmt
  dsimp only
  split <;> rfl

/-- State after `runGoFmt`. -/
theorem runGoFmt_state {σ : Type} (os : OS σ) (a : Analyzer) (files : List String) (m : Sys σ) :
    (runGoFmt os a files m).2 =
      { world := (os.exec { dir := a.repoPath, argv := ["gofmt", "-l"] ++ files,
                            timeout := none } m.world).2,
        trace := m.trace ++ [Action.exec { dir := a.repoPath, argv := ["gofmt", "-l"] ++ files,
                                           timeout := none }] } := by
  unfold runGoFmt
  dsimp only
  split <;> rfl

/-- Tool names of `checkGo`: nothing without `go` on the path; otherwise `gofmt`
and `go vet`, then `golangci-lint` when it is on the path after the two ran. -/
theorem checkGo_tools {σ : Type} (os : OS σ) (a : Analyzer) (files : List String) (m : Sys σ) :
    ((checkGo os a files m).1.map fun r => r.Tool) =
      if os.lookPath "go" m.world = true then
        "gofmt" :: "go vet" ::
          (if os.lookPath "golangci-lint"
              (os.exec { dir := a.repoPath, argv := ["go", "vet", "./..."], timeout := none }
                (os.exec { dir := a.repoPath, argv := ["gofmt", "-l"] ++ files, timeout := none }
                  m.world).2).2 = true
           then ["golangci-lint"] else [])
      else [] := by
  unfold checkGo
  by_cases hgo : os.lookPath "go" m.world = true
  · simp only [commandExists, hgo, Bool.not_true, Bool.false_eq_true, if_false, if_true]
    simp only [runGoVet, runGolangciLint, runCombined_state, runGoFmt_state]
    split <;> simp [runGoFmt_tool, runCombined_tool]
  · simp [commandExists, hgo]

/-- Tool names of `checkDart`: nothing without `dart` on the path; otherwise
`dart analyze`, then `flutter analyze` when `flutter` is on the path after it ran. -/
theorem checkDart_tools {σ : Type} (os : OS σ) (a : Analyzer) (files : List String) (m : Sys σ) :
    ((checkDart os a files m).1.map fun r => r.Tool) =
      if os.lookPath "dart" m.world = true then
        "dart analyze" ::
          (if os.lookPath "flutter"
              (os.exec { dir := a.repoPath, argv := ["dart", "analyze"], timeout := none }
                m.world).2 = true
           then ["flutter analyze"] else [])
      else [] := by
  unfold checkDart
  by_cases hdart : os.lookPath "dart" m.world = true
  · simp only [commandExists, hdart, Bool.not_true, Bool.false_eq_true, if_false, if_true]
    simp only [runCombined_state]
    split <;> simp [runCombined_tool]
  · simp [commandExists, hdart]

/-- Tool names of the loop of `checkBash`: `shellcheck` once per file. -/
theorem checkBashLoop_tools {σ : Type} (os : OS σ) (files : List String) (m : Sys σ) :
    ((checkBashLoop os files m).1.map fun r => r.Tool) = files.map fun _ => "shellcheck" := by
  induction files generalizing m with
  | nil => rfl
  | cons file rest ih => simp [checkBashLoop, runCombined_tool, ih]

/-- Tool names of `checkBash`. -/
theorem checkBash_tools {σ : Type} (os : OS σ) (a : Analyzer) (files : List String) (m : Sys σ) :
    ((checkBash os a files m).1.map fun r => r.Tool) =
      if os.lookPath "shellcheck" m.world = true then files.map fun _ => "shellcheck"
      else [] := by
  unfold checkBash
  by_cases h : os.lookPath "shellcheck" m.world = true
  · simp [commandExists, h, checkBashLoop_tools]
  · simp [commandExists, h]

/-- Tool names of `checkJavaScript`. -/
theorem checkJavaScript_tools {σ : Type} (os : OS σ) (a : Analyzer) (files : List String)
    (m : Sys σ) :
    ((checkJavaScript os a files m).1.map fun r => r.Tool) =
      if os.lookPath "eslint" m.world = true then ["eslint"] else [] := by
  unfold checkJavaScript
  by_cases h : os.lookPath "eslint" m.world = true
  · simp [commandExists, h, runCombined_tool]
  · simp [commandExists, h]

/-- State after `checkGo`, in terms of the path lookups and of the states that
the commands leave. -/
theorem checkGo_state {σ : Type} (os : OS σ) (a : Analyzer) (files : List String) (m : Sys σ) :
    (checkGo os a files m).2 =
      if os.lookPath "go" m.world = true then
        let m2 := (spawn os { dir := a.repoPath, argv := ["go", "vet", "./..."], timeout := none }
          (spawn os { dir := a.repoPath, argv := ["gofmt", "-l"] ++ files, timeout := none }
            m).2).2
        if os.lookPath "golangci-lint" m2.world = true then
          (spawn os { dir := a.repoPath,
                      argv := ["golangci-lint", "run", "--out-format=colored-line-number"],
                      timeout := none } m2).2
        else m2
      else m := by
  unfold checkGo
  by_cases hgo : os.lookPath "go" m.world = true
  · simp only [commandExists, hgo, Bool.not_true, Bool.false_eq_true, if_false, if_true]
    simp only [runGoVet, runGolangciLint, runCombined_state, runGoFmt_state, spawn]
    split <;> simp
  · simp [commandExists, hgo]

/-- State after `checkDart`. -/
theorem checkDart_state {σ : Type} (os : OS σ) (a : Analyzer) (files : List String) (m : Sys σ) :
    (checkDart os a files m).2 =
      if os.lookPath "dart" m.world = true then
        let m1 := (spawn os { dir := a.repoPath, argv := ["dart", "analyze"], timeout := none }
          m).2
        if os.lookPath "flutter" m1.world = true then
          (spawn os { dir := a.repoPath, argv := ["flutter", "analyze"], timeout := none } m1).2
        else m1
      else m := by
  unfold checkDart
  by_cases hdart : os.lookPath "dart" m.world = true
  · simp only [commandExists, hdart, Bool.not_true, Bool.false_eq_true, if_false, if_true]
    simp only [runCombined_state, spawn]
    split <;> simp
  · simp [commandExists, hdart]

/-- State after the loop of `checkBash` does not depend on the outcomes. -/
theorem checkBashLoop_state {σ : Type} (os1 os2 : OS σ)
    (hexec : ∀ cmd w, (os1.exec cmd w).2 = (os2.exec cmd w).2) (files : List String)
    (m : Sys σ) : (checkBashLoop os1 files m).2 = (checkBashLoop os2 files m).2 := by
  induction files generalizing m with
  | nil => rfl
  | cons file rest ih =>
    simp only [checkBashLoop, runCombined_state, hexec]
    exact ih _

/-- State after `checkJavaScript`. -/
theorem checkJavaScript_state {σ : Type} (os : OS σ) (a : Analyzer) (files : List String)
    (m : Sys σ) :
    (checkJavaScript os a files m).2 =
      if os.lookPath "eslint" m.world = true then
        (spawn os { dir := a.repoPath, argv := ["eslint"] ++ files, timeout := none } m).2
      else m := by
  unfold checkJavaScript
  by_cases h : os.lookPath "eslint" m.world = true
  · simp [commandExists, h, runCombined_state, spawn]
  · simp [commandExists, h]

/-- The grouping depends on the operating system only through the existence of
the files. -/
theorem groupFilesLoop_congr {σ : Type} (os1 os2 : OS σ)
    (hstat : ∀ f w, os1.notExist f w = os2.notExist f w) (w : σ) (files : List String)
    (groups : List (String × List String)) :
    groupFilesLoop os1 w files groups = groupFilesLoop os2 w files groups := by
  induction files generalizing groups with
  | nil => rfl
  | cons file rest ih =>
    unfold groupFilesLoop
    rw [hstat]
    split
    · exact ih _
    · split <;> exact ih _

/-- Names and final state of `checkGo` do not depend on the outcomes of the commands. -/
theorem checkGo_indep {σ : Type} (os1 os2 : OS σ)
    (hexec : ∀ cmd w, (os1.exec cmd w).2 = (os2.exec cmd w).2)
    (hpath : ∀ n w, os1.lookPath n w = os2.lookPath n w)
    (a : Analyzer) (files : List String) (m : Sys σ) :
    ((checkGo os1 a files m).1.map fun r => r.Tool) =
        ((checkGo os2 a files m).1.map fun r => r.Tool) ∧
      (checkGo os1 a files m).2 = (checkGo os2 a files m).2 := by
  rw [checkGo_tools, checkGo_tools, checkGo_state, checkGo_state]
  simp only [hpath, hexec, spawn]
  exact ⟨trivial, trivial⟩

/-- Names and final state of `checkDart` do not depend on the outcomes of the commands. -/
theorem checkDart_indep {σ : Type} (os1 os2 : OS σ)
    (hexec : ∀ cmd w, (os1.exec cmd w).2 = (os2.exec cmd w).2)
    (hpath : ∀ n w, os1.lookPath n w = os2.lookPath n w)
    (a : Analyzer) (files : List String) (m : Sys σ) :
    ((checkDart os1 a files m).1.map fun r => r.Tool) =
        ((checkDart os2 a files m).1.map fun r => r.Tool) ∧
      (checkDart os1 a files m).2 = (checkDart os2 a files m).2 := by
  rw [checkDart_tools, checkDart_tools, checkDart_state, checkDart_state]
  simp only [hpath, hexec, spawn]
  exact ⟨trivial, trivial⟩

/-- Names and final state of `checkBash` do not depend on the outcomes of the commands. -/
theorem checkBash_indep {σ : Type} (os1 os2 : OS σ)
    (hexec : ∀ cmd w, (os1.exec cmd w).2 = (os2.exec cmd w).2)
    (hpath : ∀ n w, os1.lookPath n w = os2.lookPath n w)
    (a : Analyzer) (files : List String) (m : Sys σ) :
    ((checkBash os1 a files m).1.map fun r => r.Tool) =
        ((checkBash os2 a files m).1.map fun r => r.Tool) ∧
      (checkBash os1 a files m).2 = (checkBash os2 a files m).2 := by
  refine ⟨by rw [checkBash_tools, checkBash_tools, hpath], ?_⟩
  unfold checkBash
  simp only [commandExists, hpath]
  split
  · rfl
  · exact checkBashLoop_state os1 os2 hexec files m

/-- Names and final state of `checkJavaScript` do not depend on the outcomes of
the commands. -/
theorem checkJavaScript_indep {σ : Type} (os1 os2 : OS σ)
    (hexec : ∀ cmd w, (os1.exec cmd w).2 = (os2.exec cmd w).2)
    (hpath : ∀ n w, os1.lookPath n w = os2.lookPath n w)
    (a : Analyzer) (files : List String) (m : Sys σ) :
    ((checkJavaScript os1 a files m).1.map fun r => r.Tool) =
        ((checkJavaScript os2 a files m).1.map fun r => r.Tool) ∧
      (checkJavaScript os1 a files m).2 = (checkJavaScript os2 a files m).2 := by
  rw [checkJavaScript_tools, checkJavaScript_tools, checkJavaScript_state,
    checkJavaScript_state]
  simp only [hpath, hexec, spawn]
  exact ⟨trivial, trivial⟩

/-- Names and final state of `RunChecks` do not depend on the outcomes of the commands. -/
theorem RunChecks_indep {σ : Type} (os1 os2 : OS σ)
    (hexec : ∀ cmd w, (os1.exec cmd w).2 = (os2.exec cmd w).2)
    (hpath : ∀ n w, os1.lookPath n w = os2.lookPath n w)
    (hstat : ∀ f w, os1.notExist f w = os2.notExist f w)
    (a : Analyzer) (files : List String) (m : Sys σ) :
    ((RunChecks os1 a files m).1.map fun r => r.Tool) =
        ((RunChecks os2 a files m).1.map fun r => r.Tool) ∧
      (RunChecks os1 a files m).2 = (RunChecks os2 a files m).2 := by
  have hgroups : groupFilesByType os1 files (record (Action.RunChecks a.repoPath files) m) =
      groupFilesByType os2 files (record (Action.RunChecks a.repoPath files) m) :=
    groupFilesLoop_congr os1 os2 hstat _ files []
  unfold RunChecks
  dsimp only
  rw [hgroups]
  generalize groupFilesByType os2 files (record (Action.RunChecks a.repoPath files) m) = groups
  generalize record (Action.RunChecks a.repoPath files) m = m0
  have s1 : (if (mapIndex groups "go").length > 0 then checkGo os1 a (mapIndex groups "go") m0
        else ([], m0)).2 =
      (if (mapIndex groups "go").length > 0 then checkGo os2 a (mapIndex groups "go") m0
        else ([], m0)).2 := by
    split
    · exact (checkGo_indep os1 os2 hexec hpath a _ m0).2
    · rfl
  have n1 : ((if (mapIndex groups "go").length > 0 then checkGo os1 a (mapIndex groups "go") m0
        else ([], m0)).1.map fun r => r.Tool) =
      ((if (mapIndex groups "go").length > 0 then checkGo os2 a (mapIndex groups "go") m0
        else ([], m0)).1.map fun r => r.Tool) := by
    split
    · exact (checkGo_indep os1 os2 hexec hpath a _ m0).1
    · rfl
  rw [s1]
  generalize (if (mapIndex groups "go").length > 0 then checkGo os2 a (mapIndex groups "go") m0
        else ([], m0)).2 = m1
  have s2 : (if (mapIndex groups "dart").length > 0 then
        checkDart os1 a (mapIndex groups "dart") m1 else ([], m1)).2 =
      (if (mapIndex groups "dart").length > 0 then
        checkDart os2 a (mapIndex groups "dart") m1 else ([], m1)).2 := by
    split
    · exact (checkDart_indep os1 os2 hexec hpath a _ m1).2
    · rfl
  have n2 : ((if (mapIndex groups "dart").length > 0 then
        checkDart os1 a (mapIndex groups "dart") m1 else ([], m1)).1.map fun r => r.Tool) =
      ((if (mapIndex groups "dart").length > 0 then
        checkDart os2 a (mapIndex groups "dart") m1 else ([], m1)).1.map fun r => r.Tool) := by
    split
    · exact (checkDart_indep os1 os2 hexec hpath a _ m1).1
    · rfl
  rw [s2]
  generalize (if (mapIndex groups "dart").length > 0 then
        checkDart os2 a (mapIndex groups "dart") m1 else ([], m1)).2 = m2
  have s3 : (if (mapIndex groups "bash").length > 0 then
        checkBash os1 a (mapIndex groups "bash") m2 else ([], m2)).2 =
      (if (mapIndex groups "bash").length > 0 then
        checkBash os2 a (mapIndex groups "bash") m2 else ([], m2)).2 := by
    split
    · exact (checkBash_indep os1 os2 hexec hpath a _ m2).2
    · rfl
  have n3 : ((if (mapIndex groups "bash").length > 0 then
        checkBash os1 a (mapIndex groups "bash") m2 else ([], m2)).1.map fun r => r.Tool) =
      ((if (mapIndex groups "bash").length > 0 then
        checkBash os2 a (mapIndex groups "bash") m2 else ([], m2)).1.map fun r => r.Tool) := by
    split
    · exact (checkBash_indep os1 os2 hexec hpath a _ m2).1
    · rfl
  rw [s3]
  generalize (if (mapIndex groups "bash").length > 0 then
        checkBash os2 a (mapIndex groups "bash") m2 else ([], m2)).2 = m3
  have s4 : (if (mapIndex groups "js").length > 0 then
        checkJavaScript os1 a (mapIndex groups "js") m3 else ([], m3)).2 =
      (if (mapIndex groups "js").length > 0 then
        checkJavaScript os2 a (mapIndex groups "js") m3 else ([], m3)).2 := by
    split
    · exact (checkJavaScript_indep os1 os2 hexec hpath a _ m3).2
    · rfl
  have n4 : ((if (mapIndex groups "js").length > 0 then
        checkJavaScript os1 a (mapIndex groups "js") m3 else ([], m3)).1.map
          fun r => r.Tool) =
      ((if (mapIndex groups "js").length > 0 then
        checkJavaScript os2 a (mapIndex groups "js") m3 else ([], m3)).1.map
          fun r => r.Tool) := by
    split
    · exact (checkJavaScript_indep os1 os2 hexec hpath a _ m3).1
    · rfl
  refine ⟨?_, s4⟩
  simp only [List.map_append]
  rw [n1, n2, n3, n4]

/-- C19 (amended): the tool names of the list returned by `RunChecks` are those
of the go, dart, bash and js stages in this order, a stage being skipped when
its category has no file. The go stage contributes nothing when `go` is not on
the path and otherwise, in this order, `gofmt`, `go vet` and `golangci-lint`,
each when its own executable is on the path (in a world where `gofmt` is on the
path whenever `go` is); the dart stage contributes nothing when `dart` is not on
the path and otherwise `dart analyze`, then `flutter analyze` when `flutter` is
on the path; the bash stage contributes `shellcheck` once per shell file when
`shellcheck` is on the path; the js stage contributes `eslint` when it is on the
path. The names and the commands executed are the same on every operating
system that differs only in the outcomes (success, failure, output) of the
commands. -/
theorem RunChecks_tool_order {σ : Type} (os : OS σ) (a : Analyzer) (files : List String)
    (m : Sys σ) :
    (let m0 := record (Action.RunChecks a.repoPath files) m
     let groups := groupFilesByType os files m0
     let r1 := if (mapIndex groups "go").length > 0 then checkGo os a (mapIndex groups "go") m0
       else ([], m0)
     let r2 := if (mapIndex groups "dart").length > 0 then
       checkDart os a (mapIndex groups "dart") r1.2 else ([], r1.2)
     let r3 := if (mapIndex groups "bash").length > 0 then
       checkBash os a (mapIndex groups "bash") r2.2 else ([], r2.2)
     let r4 := if (mapIndex groups "js").length > 0 then
       checkJavaScript os a (mapIndex groups "js") r3.2 else ([], r3.2)
     ((RunChecks os a files m).1.map fun r => r.Tool) =
       (r1.1.map fun r => r.Tool) ++ (r2.1.map fun r => r.Tool) ++
         (r3.1.map fun r => r.Tool) ++ (r4.1.map fun r => r.Tool)) ∧
    (∀ (fs : List String) (s : Sys σ),
      (os.lookPath "go" s.world = true → os.lookPath "gofmt" s.world = true) →
      ((checkGo os a fs s).1.map fun r => r.Tool) =
        if os.lookPath "go" s.world = true then
          (if os.lookPath "gofmt" s.world = true then ["gofmt"] else []) ++
          "go vet" ::
            (if os.lookPath "golangci-lint"
                (os.exec { dir := a.repoPath, argv := ["go", "vet", "./..."], timeout := none }
                  (os.exec { dir := a.repoPath, argv := ["gofmt", "-l"] ++ fs, timeout := none }
                    s.world).2).2 = true
             then ["golangci-lint"] else [])
        else []) ∧
    (∀ (fs : List String) (s : Sys σ),
      ((checkDart os a fs s).1.map fun r => r.Tool) =
        if os.lookPath "dart" s.world = true then
          "dart analyze" ::
            (if os.lookPath "flutter"
                (os.exec { dir := a.repoPath, argv := ["dart", "analyze"], timeout := none }
                  s.world).2 = true
             then ["flutter analyze"] else [])
        else []) ∧
    (∀ (fs : List String) (s : Sys σ),
      ((checkBash os a fs s).1.map fun r => r.Tool) =
        if os.lookPath "shellcheck" s.world = true then fs.map fun _ => "shellcheck" else []) ∧
    (∀ (fs : List String) (s : Sys σ),
      ((checkJavaScript os a fs s).1.map fun r => r.Tool) =
        if os.lookPath "eslint" s.world = true then ["eslint"] else []) ∧
    (∀ os2 : OS σ,
      (∀ cmd w, (os.exec cmd w).2 = (os2.exec cmd w).2) →
      (∀ n w, os.lookPath n w = os2.lookPath n w) →
      (∀ f w, os.notExist f w = os2.notExist f w) →
      ((RunChecks os a files m).1.map fun r => r.Tool) =
          ((RunChecks os2 a files m).1.map fun r => r.Tool) ∧
        (RunChecks os a files m).2 = (RunChecks os2 a files m).2) := by
  refine ⟨?_, ?_, checkDart_tools os a, checkBash_tools os a, checkJavaScript_tools os a, ?_⟩
  · dsimp only
    unfold RunChecks
    simp only [List.map_append]
  · intro fs s hgofmt
    rw [checkGo_tools]
    by_cases hgo : os.lookPath "go" s.world = true
    · simp [hgo, hgofmt hgo]
    · simp [hgo]
  · intro os2 hexec hpath hstat
    exact RunChecks_indep os os2 hexec hpath hstat a files m

/-- C19 (witness): with every tool on the path, one file of each category and a
second shell file give the same eight names in the same order whether every
command succeeds or every command fails. -/
theorem RunChecks_tool_order_witness :
    ((RunChecks allToolsOS (NewAnalyzer ".") ["a.sh", "b.js", "c.dart", "d.go", "e.bash"]
        freshSys).1.map fun r => r.Tool) =
      ["gofmt", "go vet", "golangci-lint", "dart analyze", "flutter analyze", "shellcheck",
       "shellcheck", "eslint"] ∧
    ((RunChecks allToolsOS (NewAnalyzer ".") ["a.sh", "b.js", "c.dart", "d.go", "e.bash"]
        freshSys).1.map fun r => r.Tool) =
      ((RunChecks allFailOS (NewAnalyzer ".") ["a.sh", "b.js", "c.dart", "d.go", "e.bash"]
        freshSys).1.map fun r => r.Tool) :=
  ⟨by decide,
   ((RunChecks_tool_order allToolsOS (NewAnalyzer ".") ["a.sh", "b.js", "c.dart", "d.go", "e.bash"]
      freshSys).2.2.2.2.2 allFailOS (fun _ _ => rfl) (fun _ _ => rfl) (fun _ _ => rfl)).1⟩

/-! ## Check runner: grouping of the files -/

/-- Reading a map after an assignment. -/
theorem mapIndex_mapAssign (groups : List (String × List String)) (k k2 : String)
    (v : List String) :
    mapIndex (mapAssign k v groups) k2 = if k2 = k then v else mapIndex groups k2 := by
  induction groups with
  | nil =>
    by_cases h : k2 = k
    · simp [mapAssign, mapIndex, List.lookup, h]
    · have h2 : (k2 == k) = false := by simpa using h
      simp [mapAssign, mapIndex, List.lookup, h, h2]
  | cons kv rest ih =>
    obtain ⟨k1, v1⟩ := kv
    unfold mapAssign
    by_cases h1 : k1 = k
    · subst h1
      by_cases h : k2 = k1
      · simp [mapIndex, List.lookup, h]
      · have h2 : (k2 == k1) = false := by simpa using h
        simp [mapIndex, List.lookup, h, h2]
    · rw [if_neg h1]
      by_cases h : k2 = k1
      · subst h
        have h3 : ¬ k2 = k := h1
        simp [mapIndex, List.lookup, h3]
      · have h2 : (k2 == k1) = false := by simpa using h
        have ih2 := ih
        simp only [mapIndex] at ih2 ⊢
        simp only [List.lookup, h2]
        exact ih2

/-- Membership in the contract's extension table, spelled out. -/
theorem specExtensions_contains (k ext : String) :
    (specExtensions k).contains ext = true ↔
      (k = "go" ∧ ext = ".go") ∨ (k = "dart" ∧ ext = ".dart") ∨
      (k = "bash" ∧ (ext = ".sh" ∨ ext = ".bash")) ∨
      (k = "js" ∧ (ext = ".js" ∨ ext = ".jsx" ∨ ext = ".ts" ∨ ext = ".tsx")) := by
  unfold specExtensions
  split
  · simp
  · simp
  · simp
  · simp
  · rename_i h1 h2 h3 h4
    have g1 : ¬ k = "go" := h1
    have g2 : ¬ k = "dart" := h2
    have g3 : ¬ k = "bash" := h3
    have g4 : ¬ k = "js" := h4
    simp [g1, g2, g3, g4]

/-- The loop of `groupFilesByType` appends to each category the files of the
contract's classification, read with the check of the code for existence, in
input order. -/
theorem groupFilesLoop_spec {σ : Type} (os : OS σ) (w : σ) (files : List String)
    (groups : List (String × List String)) (k : String) :
    mapIndex (groupFilesLoop os w files groups) k =
      mapIndex groups k ++ files.filter (specBelongs (fun f => !os.notExist f w) k) := by
  induction files generalizing groups with
  | nil => simp [groupFilesLoop]
  | cons file rest ih =>
    unfold groupFilesLoop
    by_cases hne : os.notExist file w = true
    · rw [if_pos hne, ih]
      simp [List.filter_cons, specBelongs, hne]
    · rw [if_neg hne]
      have hex : os.notExist file w = false := by simpa using hne
      have hb : specBelongs (fun f => !os.notExist f w) k file = (specExtensions k).contains (ToLower (Ext file)) := by
        simp [specBelongs, hex]
      have assign : ∀ (cat ext : String), ToLower (Ext file) = ext →
          (∀ k2, (specExtensions k2).contains ext = true ↔ k2 = cat) →
          mapIndex (groupFilesLoop os w rest
            (mapAssign cat (mapIndex groups cat ++ [file]) groups)) k =
          mapIndex groups k ++ (file :: rest).filter (specBelongs (fun f => !os.notExist f w) k) := by
        intro cat ext hext hcat
        rw [ih, mapIndex_mapAssign, List.filter_cons, hb, hext]
        by_cases hk : k = cat
        · subst hk
          rw [if_pos rfl, if_pos ((hcat k).mpr rfl)]
          simp
        · rw [if_neg hk]
          have : ¬ (specExtensions k).contains ext = true := fun h => hk ((hcat k).mp h)
          rw [if_neg this]
      split
      · exact assign "go" ".go" (by assumption) (fun k2 => by rw [specExtensions_contains]; simp)
      · exact assign "dart" ".dart" (by assumption) (fun k2 => by rw [specExtensions_contains]; simp)
      · exact assign "bash" ".sh" (by assumption) (fun k2 => by rw [specExtensions_contains]; simp)
      · exact assign "bash" ".bash" (by assumption) (fun k2 => by rw [specExtensions_contains]; simp)
      · exact assign "js" ".js" (by assumption) (fun k2 => by rw [specExtensions_contains]; simp)
      · exact assign "js" ".jsx" (by assumption) (fun k2 => by rw [specExtensions_contains]; simp)
      · exact assign "js" ".ts" (by assumption) (fun k2 => by rw [specExtensions_contains]; simp)
      · exact assign "js" ".tsx" (by assumption) (fun k2 => by rw [specExtensions_contains]; simp)
      · rename_i h1 h2 h3 h4 h5 h6 h7 h8
        rw [ih, List.filter_cons, hb]
        have : ¬ (specExtensions k).contains (ToLower (Ext file)) = true := by
          rw [specExtensions_contains]
          have g1 : ¬ ToLower (Ext file) = ".go" := h1
          have g2 : ¬ ToLower (Ext file) = ".dart" := h2
          have g3 : ¬ ToLower (Ext file) = ".sh" := h3
          have g4 : ¬ ToLower (Ext file) = ".bash" := h4
          have g5 : ¬ ToLower (Ext file) = ".js" := h5
          have g6 : ¬ ToLower (Ext file) = ".jsx" := h6
          have g7 : ¬ ToLower (Ext file) = ".ts" := h7
          have g8 : ¬ ToLower (Ext file) = ".tsx" := h8
          simp [g1, g2, g3, g4, g5, g6, g7, g8]
        rw [if_neg this]

/-- A lower-case extension is in the table of at most one category. -/
theorem specExtensions_disjoint (c1 c2 ext : String)
    (h1 : (specExtensions c1).contains ext = true) (h2 : (specExtensions c2).contains ext = true) :
    c1 = c2 := by
  rw [specExtensions_contains] at h1 h2
  rcases h1 with ⟨a, b⟩ | ⟨a, b⟩ | ⟨a, b⟩ | ⟨a, b⟩ <;>
    rcases h2 with ⟨a2, b2⟩ | ⟨a2, b2⟩ | ⟨a2, b2⟩ | ⟨a2, b2⟩ <;>
    subst a <;> subst a2 <;> first
      | rfl
      | (exfalso; rcases b with b | b | b | b <;> subst b <;> revert b2 <;> decide)
      | (exfalso; rcases b with b | b <;> subst b <;> revert b2 <;> decide)
      | (exfalso; subst b; revert b2; decide)

/-- What `groupFilesByType` computes: the list it holds for a category is the
input list filtered by the contract's classification with "`os.Stat` reports no
error of the kind `os.IsNotExist`" in the place of "the path exists", in input
order; a path is in a category exactly when this holds of it, and since the
tables are disjoint no path is in two categories. -/
theorem groupFilesByType_classifies {σ : Type} (os : OS σ) (files : List String) (m : Sys σ) :
    (∀ category : String,
      mapIndex (groupFilesByType os files m) category =
        files.filter (specBelongs (fun f => !os.notExist f m.world) category)) ∧
    (∀ (category file : String),
      file ∈ mapIndex (groupFilesByType os files m) category ↔
        file ∈ files ∧ os.notExist file m.world = false ∧
          ToLower (Ext file) ∈ specExtensions category) ∧
    (∀ (c1 c2 file : String),
      file ∈ mapIndex (groupFilesByType os files m) c1 →
      file ∈ mapIndex (groupFilesByType os files m) c2 → c1 = c2) ∧
    specExtensions "go" = [".go"] ∧ specExtensions "dart" = [".dart"] ∧
    specExtensions "bash" = [".sh", ".bash"] ∧
    specExtensions "js" = [".js", ".jsx", ".ts", ".tsx"] := by
  have h1 : ∀ category : String,
      mapIndex (groupFilesByType os files m) category =
        files.filter (specBelongs (fun f => !os.notExist f m.world) category) := by
    intro category
    unfold groupFilesByType
    rw [groupFilesLoop_spec]
    simp [mapIndex]
  have h2 : ∀ (category file : String),
      file ∈ mapIndex (groupFilesByType os files m) category ↔
        file ∈ files ∧ os.notExist file m.world = false ∧
          ToLower (Ext file) ∈ specExtensions category := by
    intro category file
    rw [h1, List.mem_filter]
    simp [specBelongs]
  refine ⟨h1, h2, ?_, rfl, rfl, rfl, rfl⟩
  intro c1 c2 file hf1 hf2
  have e1 := ((h2 c1 file).mp hf1).2.2
  have e2 := ((h2 c2 file).mp hf2).2.2
  exact specExtensions_disjoint c1 c2 (ToLower (Ext file)) (by simpa using e1) (by simpa using e2)

/-! ## Read loop: end of the stream -/

/-- Bytes without a newline followed by the end of the stream: the loop returns
`nil` and leaves the connection as it is, whatever it had read of the line. -/
theorem startLoop_partial {σ ρ : Type} (D : RequestLib) (J : JSONLib ρ) (s : Server σ ρ)
    (partialLine cur : List Char) (c : Conn σ) (hunfinished : '\n' ∉ partialLine) :
    startLoop D J s partialLine cur none c = (none, c) := by
  induction partialLine generalizing cur with
  | nil => rfl
  | cons ch tail ih =>
    have hch : ch ≠ '\n' := fun h => hunfinished (by simp [h])
    have htail : '\n' ∉ tail := fun h => hunfinished (List.mem_cons_of_mem ch h)
    rw [startLoop, if_neg hch]
    exact ih _ htail

/-- On a stream that ends with `io.EOF` the loop returns `nil`. -/
theorem startLoop_eof_nil {σ ρ : Type} (D : RequestLib) (J : JSONLib ρ) (s : Server σ ρ)
    (data cur : List Char) (c : Conn σ) : (startLoop D J s data cur none c).1 = none := by
  induction data generalizing cur c with
  | nil => rfl
  | cons ch rest ih =>
    rw [startLoop]
    split
    · split <;> exact ih _ _
    · exact ih _ _

/-- C21: when the input stream ends, at end-of-stream, with bytes that no
newline follows, `Start` returns `nil` and ends in the very state it reaches on
the stream without these bytes: the partial line is not decoded, nothing is
dispatched, invoked, written or logged for it, whatever the decoder would make
of it (a valid request carrying an id included), and the complete lines before
it are handled as without it. -/
theorem Start_discards_partial_line {σ ρ : Type} (D : RequestLib) (J : JSONLib ρ)
    (s : Server σ ρ) (before partialLine : List Char) (c : Conn σ)
    (hbefore : before = [] ∨ before.getLast? = some '\n')
    (hunfinished : '\n' ∉ partialLine) :
    Start D J s { data := before ++ partialLine, err := none } c =
      Start D J s { data := before, err := none } c ∧
    (Start D J s { data := before ++ partialLine, err := none } c).1 = none ∧
    (∀ req : Request, D.unmarshalRequest (String.mk partialLine) = .ok req → req.ID ≠ none →
      (Start D J s { data := before ++ partialLine, err := none } c).2.written =
          (Start D J s { data := before, err := none } c).2.written ∧
        (Start D J s { data := before ++ partialLine, err := none } c).2.invoked =
          (Start D J s { data := before, err := none } c).2.invoked) := by
  have hsame : Start D J s { data := before ++ partialLine, err := none } c =
      Start D J s { data := before, err := none } c := by
    unfold Start
    dsimp only
    rcases hbefore with hnil | hlast
    · subst hnil
      rw [List.nil_append, startLoop_partial D J s partialLine [] _ hunfinished]
      rfl
    · rw [startLoop_append D J s before partialLine [] none _ hlast,
        startLoop_partial D J s partialLine [] _ hunfinished]
      exact Prod.ext (startLoop_eof_nil D J s before [] _).symm rfl
  refine ⟨hsame, startLoop_eof_nil D J s _ [] _, fun _ _ _ => by rw [hsame]; exact ⟨rfl, rfl⟩⟩

/-- C21 (witness): the stream `ping`, newline, `ping` without a newline, read
with a decoder that accepts the second `ping` as a request with id 1: only the
first `ping` is answered. -/
theorem Start_discards_partial_line_witness :
    pingLib.unmarshalRequest (String.mk "ping".data) =
      .ok { JSONRPC := "2.0", ID := some { text := "1" }, Method := "ping", Params := "" } ∧
    Start pingLib noParamsLib (NewServer Unit Unit)
        { data := "ping\nping".data, err := none } freshConn =
      (none,
       { world := (),
         written := [{ JSONRPC := "2.0", ID := some { text := "1" }, Result := some (.obj []),
                       Error := none }],
         logged := ["MCP server starting..."],
         invoked := [] }) ∧
    Start pingLib noParamsLib (NewServer Unit Unit)
        { data := "ping\nping".data, err := none } freshConn =
      Start pingLib noParamsLib (NewServer Unit Unit)
        { data := "ping\n".data, err := none } freshConn :=
  ⟨rfl, rfl,
   (Start_discards_partial_line pingLib noParamsLib (NewServer Unit Unit) "ping\n".data
      "ping".data freshConn (Or.inr rfl) (by decide)).1⟩

/-! ## Check runner: a path that does not exist -/

/-- C20 (the code at the failing input): in a file tree where `plain` is a
regular file, the path `plain/x.go` does not exist and `os.Stat` fails on it
with `ENOTDIR`, an error of which `os.IsNotExist` does not hold. The check of
`groupFilesByType` lets the path through and puts it in the category `go`,
while the contract's classification puts only the existing `lib/Util.GO` there
(its extension `.GO` is compared in lower case) and drops both `plain/x.go` and
the missing `gone.go`. -/
theorem groupFilesByType_keeps_missing_path :
    treeStat "plain/x.go" = some StatError.ENOTDIR ∧
    treeExists "plain/x.go" = false ∧
    treeOS.notExist "plain/x.go" () = false ∧
    mapIndex (groupFilesByType treeOS ["plain/x.go", "gone.go", "lib/Util.GO"] freshSys) "go" =
      ["plain/x.go", "lib/Util.GO"] ∧
    ["plain/x.go", "gone.go", "lib/Util.GO"].filter (specBelongs treeExists "go") =
      ["lib/Util.GO"] ∧
    ToLower (Ext "lib/Util.GO") = ".go" := by
  refine ⟨rfl, rfl, rfl, by decide, by decide, by decide⟩

end GitGuardian
